import Mathlib

/-!
# Verification of the sDDF i2c subsystem (transport / driver / server)

Shallow embedding of the C sources under `src/drivers/i2c/odroidc4/`:
`i2c-transport.c` (shared-ring transport layer), `i2c-odroid-c4.c` (driver
state machine) and `i2c.c` (security/multiplexer server).

Machine integers are modelled as `Nat` (bytes are truncated `% 256` at each
store, 32-bit registers stay below `2^32` by construction).  Shared memory is
a single byte store `Mem : Nat → Nat`; pointers are plain addresses.
Fallible C calls returning `0`/`NULL` are modelled with `Option`.

The repository headers `i2c-transport.h`, `i2c-driver.h`, `i2c-token.h`,
`odroidc4-i2c-mem.h` and the `sw_shared_ringbuffer` library are not present
under `src/`; the constants and ring primitives they provide are modelled
from the spec (each such definition carries a `Modelled from the spec:` doc
comment).
-/

set_option synthInstance.maxSize 2000

/-- Modelled from the spec: ring capacity.  `sw_shared_ringbuffer.h` is not
under src/; the source comments in `i2c.c` describe each ring as
512 descriptor entries. -/
def RING_SIZE : Nat := 512

/-- Modelled from the spec: number of buffer slots per class
(`i2c-transport.h` missing; source comments: backing buffers 512 × 512). -/
def I2C_BUF_COUNT : Nat := 512

/-- Modelled from the spec: bytes per buffer slot. -/
def I2C_BUF_SZ : Nat := 512

/-- Modelled from the spec: request-buffer field offsets
(`CLIENT_ID`, `TARGET_ADDR`, `TOKEN_STREAM_START` in that byte order,
spec §6; the literal `2` in `i2cLoadTokens`' data fetch agrees). -/
def REQ_BUF_CLIENT : Nat := 0

/-- Modelled from the spec: request-buffer target-address byte offset. -/
def REQ_BUF_ADDR : Nat := 1

/-- Modelled from the spec: request-buffer token-stream start offset. -/
def REQ_BUF_DAT_OFFSET : Nat := 2

/-- Modelled from the spec: return-buffer client-id byte offset. -/
def RET_BUF_CLIENT : Nat := 0

/-- Modelled from the spec: return-buffer target-address byte offset. -/
def RET_BUF_ADDR : Nat := 1

/-- Modelled from the spec: return-buffer error-code byte offset. -/
def RET_BUF_ERR : Nat := 2

/-- Modelled from the spec: return-buffer error-token byte offset. -/
def RET_BUF_ERR_TK : Nat := 3

/-- Modelled from the spec: return-buffer payload start offset. -/
def RET_BUF_DAT_OFFSET : Nat := 4

/-- Modelled from the spec: error code `OK`.  It must be `0`: the server
tests the error byte with a plain truthiness check (`if (err)`). -/
def I2C_ERR_OK : Nat := 0

/-- Modelled from the spec: error code `NACK`. -/
def I2C_ERR_NACK : Nat := 1

/-- Modelled from the spec: error code `NO_READ` (NACK on address-read). -/
def I2C_ERR_NOREAD : Nat := 2

/-- Modelled from the spec: error code `TIMEOUT`. -/
def I2C_ERR_TIMEOUT : Nat := 3

/-- Modelled from the spec: portable token `END` (`i2c-token.h` missing;
the numeric values of the portable vocabulary are not given by the spec, we
pick distinct codes shared with the hardware encoding). -/
def I2C_TK_END : Nat := 0

/-- Modelled from the spec: portable token `START`. -/
def I2C_TK_START : Nat := 1

/-- Modelled from the spec: portable token `ADDRW`. -/
def I2C_TK_ADDRW : Nat := 2

/-- Modelled from the spec: portable token `ADDRR`. -/
def I2C_TK_ADDRR : Nat := 3

/-- Modelled from the spec: portable token `DATA`. -/
def I2C_TK_DAT : Nat := 4

/-- Modelled from the spec: portable token `DATA_END`. -/
def I2C_TK_DATA_END : Nat := 5

/-- Modelled from the spec: portable token `STOP`. -/
def I2C_TK_STOP : Nat := 6

/-- Modelled from the spec: hardware 4-bit token `END`
(`odroidc4-i2c-mem.h` missing; distinct 4-bit codes). -/
def OC4_I2C_TK_END : Nat := 0

/-- Modelled from the spec: hardware token `START`. -/
def OC4_I2C_TK_START : Nat := 1

/-- Modelled from the spec: hardware token `ADDRW`. -/
def OC4_I2C_TK_ADDRW : Nat := 2

/-- Modelled from the spec: hardware token `ADDRR`. -/
def OC4_I2C_TK_ADDRR : Nat := 3

/-- Modelled from the spec: hardware token `DATA`. -/
def OC4_I2C_TK_DATA : Nat := 4

/-- Modelled from the spec: hardware token `DATA_END`. -/
def OC4_I2C_TK_DATA_END : Nat := 5

/-- Modelled from the spec: hardware token `STOP`. -/
def OC4_I2C_TK_STOP : Nat := 6

/-- Modelled from the spec: addressing mode `WRITE` (`i2c.h` missing). -/
def I2C_MODE_WRITE : Nat := 0

/-- Modelled from the spec: addressing mode `READ`. -/
def I2C_MODE_READ : Nat := 1

/-- Modelled from the spec: addressing mode `WRITE_CONT`. -/
def I2C_MODE_WRITE_CONT : Nat := 2

/-- Modelled from the spec: addressing mode `READ_CONT`. -/
def I2C_MODE_READ_CONT : Nat := 3

/-- Modelled from the spec: channel id of the driver→server /
server→driver completion channel (any id distinct from client channels). -/
def SERVER_NOTIFY_ID : Nat := 1

/-- Modelled from the spec: server-side channel id of the driver. -/
def DRIVER_NOTIFY_ID : Nat := 2

/-- `NUM_CLIENTS` as defined in `i2c.c`. -/
def NUM_CLIENTS : Nat := 1

/-- Modelled from the spec: security-list length (7-bit address space). -/
def I2C_SECURITY_LIST_SZ : Nat := 128

/-- Modelled from the spec: PPC request type `claim` (value unspecified,
only distinctness from `release` matters). -/
def I2C_PPC_CLAIM : Nat := 1

/-- Modelled from the spec: PPC request type `release`. -/
def I2C_PPC_RELEASE : Nat := 2

/-- Byte memory: address → stored byte. -/
def Mem : Type := Nat → Nat

/-- Store one byte (uint8_t store truncates). -/
def mwrite (m : Mem) (a v : Nat) : Mem :=
  fun x => if x = a then v % 256 else m x

/-- Read one byte (uint8_t read). -/
def mread (m : Mem) (a : Nat) : Nat := m a % 256

/-- `memcpy(dst, src, n)` within the byte store, forward byte order. -/
def memcpyMem (m : Mem) (dst src : Nat) : Nat → Mem
  | 0 => m
  | n + 1 => memcpyMem (mwrite m dst (mread m src)) (dst + 1) (src + 1) n

/-- A ring descriptor: `(address, size)` (spec §6). -/
abbrev RingEntry := Nat × Nat

/-- Modelled from the spec: a fixed-capacity ring of buffer descriptors
(`sw_shared_ringbuffer` is not under src/).  We keep the queue of live
entries; the head is the next entry to dequeue. -/
structure RingBuf where
  entries : List RingEntry
deriving Repr, DecidableEq

/-- Modelled from the spec: enqueue fails (returns `-1`, ring unchanged)
when the ring is full, and never overwrites. -/
def enqueue (r : RingBuf) (addr size : Nat) : RingBuf × Int :=
  if r.entries.length ≥ RING_SIZE then (r, -1)
  else (⟨r.entries ++ [(addr, size)]⟩, 0)

/-- Enqueue with the C callers' habit of discarding the return code. -/
def enqueueD (r : RingBuf) (addr size : Nat) : RingBuf := (enqueue r addr size).1

/-- Modelled from the spec: dequeue pops the oldest descriptor; an empty
ring is a normal condition (`none`). -/
def dequeue (r : RingBuf) : RingBuf × Option RingEntry :=
  match r.entries with
  | [] => (r, none)
  | e :: rest => (⟨rest⟩, some e)

/-- Modelled from the spec: emptiness test (`ring_empty`). -/
def ring_empty (r : RingBuf) : Bool := r.entries.isEmpty

/-- A free/used ring pair (`ring_handle_t`). -/
structure RingHandle where
  free : RingBuf
  used : RingBuf
deriving Repr, DecidableEq

/-- Transport context (`i2c_ctx_t`): request-class and return-class ring
pairs plus the backing buffer-pool base address (`driver_bufs`). -/
structure I2cCtx where
  reqRing : RingHandle
  retRing : RingHandle
  driver_bufs : Nat
deriving Repr, DecidableEq

/-- Modelled from the spec: `ring_init` — with `buffer_init` the rings are
reset empty; a client-role context only attaches (no reset). -/
def ring_init (h : RingHandle) (buffer_init : Bool) : RingHandle :=
  if buffer_init then ⟨⟨[]⟩, ⟨[]⟩⟩ else h

/-- One iteration of `i2cTransportInit`'s slot loop: push request slot
`i` and return slot `i` onto the respective free rings. -/
def initSlot (c : I2cCtx) (i : Nat) : I2cCtx :=
  { c with
    reqRing := { c.reqRing with
      free := enqueueD c.reqRing.free (c.driver_bufs + i * I2C_BUF_SZ) I2C_BUF_SZ },
    retRing := { c.retRing with
      free := enqueueD c.retRing.free
        (c.driver_bufs + I2C_BUF_SZ * (i + I2C_BUF_COUNT)) I2C_BUF_SZ } }

/-- `i2cTransportInit` (i2c-transport.c): initialise both ring pairs and,
for the pool owner, push every request slot and return slot descriptor onto
the respective free ring. -/
def i2cTransportInit (ctx : I2cCtx) (buffer_init : Bool) : I2cCtx :=
  let c0 : I2cCtx :=
    { ctx with reqRing := ring_init ctx.reqRing buffer_init,
               retRing := ring_init ctx.retRing buffer_init }
  if buffer_init then (List.range I2C_BUF_COUNT).foldl initSlot c0
  else c0

/-- `serverAllocReqBuf` (i2c-transport.c): size check, pop a request-free
descriptor, write `[client][addr]` header, copy `size` bytes of
already-tokenised payload from `data`, push to request-used (rolling the
slot back to the free ring if that fails). -/
def serverAllocReqBuf (ctx : I2cCtx) (m : Mem) (size data client addr : Nat) :
    (I2cCtx × Mem) × Option Nat :=
  if size > I2C_BUF_SZ - REQ_BUF_DAT_OFFSET then ((ctx, m), none)
  else
    match dequeue ctx.reqRing.free with
    | (_, none) => ((ctx, m), none)
    | (free1, some (buf, _sz)) =>
      let m1 := mwrite m (buf + REQ_BUF_CLIENT) client
      let m2 := mwrite m1 (buf + REQ_BUF_ADDR) addr
      let m3 := memcpyMem m2 (buf + REQ_BUF_DAT_OFFSET) data size
      match enqueue ctx.reqRing.used buf (size + REQ_BUF_DAT_OFFSET) with
      | (used1, 0) =>
        (({ ctx with reqRing := ⟨free1, used1⟩ }, m3), some buf)
      | (_, _) =>
        (({ ctx with reqRing := ⟨enqueueD free1 buf I2C_BUF_SZ, ctx.reqRing.used⟩ }, m3),
          none)

/-- Write-mode synthesis loop of `clientAllocReqBuf`:
`for (i = REQ_BUF_DAT_OFFSET+1; i < size + REQ_BUF_DAT_OFFSET; i += 2)`
emitting a DATA token then the next payload byte.  The `fuel` argument
only drives structural recursion; it strictly exceeds the possible
iteration count, so the loop always stops at its own guard. -/
def clientWriteLoopF : Nat → Mem → Nat → Nat → Nat → Nat → Nat → Mem
  | 0, m, _, _, _, _, _ => m
  | fuel + 1, m, buf, data, size, i, datOff =>
    if i < size + REQ_BUF_DAT_OFFSET then
      let m1 := mwrite m (buf + i) I2C_TK_DAT
      let m2 := mwrite m1 (buf + i + 1) (mread m1 (data + datOff))
      clientWriteLoopF fuel m2 buf data size (i + 2) (datOff + 1)
    else m

/-- The write-mode loop entered as in the source. -/
def clientWriteLoop (m : Mem) (buf data size i datOff : Nat) : Mem :=
  clientWriteLoopF (size + REQ_BUF_DAT_OFFSET) m buf data size i datOff

/-- Read-mode synthesis loop of `clientAllocReqBuf`:
`for (i = REQ_BUF_DAT_OFFSET+1; i < (size-1) + REQ_BUF_DAT_OFFSET; i++)`
emitting DATA tokens.  (The C `size_t` arithmetic underflows at
`size = 0`; here `Nat` subtraction makes that case a no-op.)  `fuel`
again only drives structural recursion. -/
def clientReadLoopF : Nat → Mem → Nat → Nat → Nat → Mem
  | 0, m, _, _, _ => m
  | fuel + 1, m, buf, size, i =>
    if i < (size - 1) + REQ_BUF_DAT_OFFSET then
      clientReadLoopF fuel (mwrite m (buf + i) I2C_TK_DAT) buf size (i + 1)
    else m

/-- The read-mode loop entered as in the source. -/
def clientReadLoop (m : Mem) (buf size i : Nat) : Mem :=
  clientReadLoopF ((size - 1) + REQ_BUF_DAT_OFFSET) m buf size i

/-- `clientAllocReqBuf` (i2c-transport.c): per-mode size check, pop a
request-free descriptor, synthesise the token chain (`0` placeholder client
byte, address byte, ADDRW/ADDRR, then the mode's token run), and push the
slot to request-used with length `size` (as the source does — not the
composed `final_size`). -/
def clientAllocReqBuf (ctx : I2cCtx) (m : Mem) (size data addr mode : Nat) :
    (I2cCtx × Mem) × Option Nat :=
  if mode = I2C_MODE_WRITE ∨ mode = I2C_MODE_WRITE_CONT then
    if size > I2C_BUF_SZ / 2 - REQ_BUF_DAT_OFFSET then ((ctx, m), none)
    else clientAllocReqBufBody ctx m size data addr mode
  else
    if size > I2C_BUF_SZ - REQ_BUF_DAT_OFFSET then ((ctx, m), none)
    else clientAllocReqBufBody ctx m size data addr mode
where
  /-- Shared tail of `clientAllocReqBuf` after the size checks. -/
  clientAllocReqBufBody (ctx : I2cCtx) (m : Mem) (size data addr mode : Nat) :
      (I2cCtx × Mem) × Option Nat :=
    match dequeue ctx.reqRing.free with
    | (_, none) => ((ctx, m), none)
    | (free1, some (buf, _sz)) =>
      let m1 := mwrite m (buf + REQ_BUF_CLIENT) 0
      let m2 := mwrite m1 (buf + REQ_BUF_ADDR) addr
      let isW : Bool := mode = I2C_MODE_WRITE ∨ mode = I2C_MODE_WRITE_CONT
      let m3 := mwrite m2 (buf + REQ_BUF_DAT_OFFSET)
        (if isW then I2C_TK_ADDRW else I2C_TK_ADDRR)
      let m4 :=
        if mread m3 (buf + REQ_BUF_DAT_OFFSET) = I2C_TK_ADDRW then
          clientWriteLoop m3 buf data size (REQ_BUF_DAT_OFFSET + 1) 0
        else
          let mr := clientReadLoop m3 buf size (REQ_BUF_DAT_OFFSET + 1)
          mwrite mr (buf + size + REQ_BUF_DAT_OFFSET) I2C_TK_DATA_END
      let m5 :=
        if mode = I2C_MODE_READ_CONT ∨ mode = I2C_MODE_WRITE_CONT then
          mwrite m4 (buf + size + REQ_BUF_DAT_OFFSET + 1) I2C_TK_END
        else m4
      match enqueue ctx.reqRing.used buf size with
      | (used1, 0) => (({ ctx with reqRing := ⟨free1, used1⟩ }, m5), some buf)
      | (_, _) =>
        (({ ctx with reqRing := ⟨enqueueD free1 buf I2C_BUF_SZ, ctx.reqRing.used⟩ }, m5),
          none)

/-- `getRetBuf` (i2c-transport.c): pop a return-free descriptor. -/
def getRetBuf (ctx : I2cCtx) : I2cCtx × Option Nat :=
  match dequeue ctx.retRing.free with
  | (_, none) => (ctx, none)
  | (free1, some (buf, _sz)) =>
    ({ ctx with retRing := { ctx.retRing with free := free1 } }, some buf)

/-- `pushRetBuf` (i2c-transport.c): guard, then enqueue the return buffer
onto the return-used ring with length `I2C_BUF_SZ`.  (The source's guard
reads an undeclared `size` and the driver calls it with a length argument;
we model the evidently intended three-argument form.) -/
def pushRetBuf (ctx : I2cCtx) (buf size : Nat) : I2cCtx × Int :=
  if size > I2C_BUF_SZ ∨ buf = 0 then (ctx, 0)
  else
    match enqueue ctx.retRing.used buf I2C_BUF_SZ with
    | (used1, rc) => ({ ctx with retRing := { ctx.retRing with used := used1 } }, rc)

/-- `popBuf`/`popReqBuf` (i2c-transport.c): dequeue from request-used,
returning the buffer pointer and its recorded size. -/
def popReqBuf (ctx : I2cCtx) : I2cCtx × Option (Nat × Nat) :=
  match dequeue ctx.reqRing.used with
  | (_, none) => (ctx, none)
  | (used1, some (buf, sz)) =>
    ({ ctx with reqRing := { ctx.reqRing with used := used1 } }, some (buf, sz))

/-- `popBuf`/`popRetBuf` (i2c-transport.c): dequeue from return-used. -/
def popRetBuf (ctx : I2cCtx) : I2cCtx × Option (Nat × Nat) :=
  match dequeue ctx.retRing.used with
  | (_, none) => (ctx, none)
  | (used1, some (buf, sz)) =>
    ({ ctx with retRing := { ctx.retRing with used := used1 } }, some (buf, sz))

/-- `retBufEmpty` (i2c-transport.c). -/
def retBufEmpty (ctx : I2cCtx) : Bool := ring_empty ctx.retRing.used

/-- `reqBufEmpty` (i2c-transport.c). -/
def reqBufEmpty (ctx : I2cCtx) : Bool := ring_empty ctx.reqRing.used

/-- `releaseReqBuf` (i2c-transport.c): push the slot back onto the
request-free ring. -/
def releaseReqBuf (ctx : I2cCtx) (buf : Nat) : I2cCtx × Int :=
  match enqueue ctx.reqRing.free buf I2C_BUF_SZ with
  | (free1, rc) => ({ ctx with reqRing := { ctx.reqRing with free := free1 } }, rc)

/-- `releaseRetBuf` (i2c-transport.c): push the slot back onto the
return-free ring. -/
def releaseRetBuf (ctx : I2cCtx) (buf : Nat) : I2cCtx × Int :=
  match enqueue ctx.retRing.free buf I2C_BUF_SZ with
  | (free1, rc) => ({ ctx with retRing := { ctx.retRing with free := free1 } }, rc)

/-- The hardware interface registers (`i2c_if_t`), all 32-bit. -/
structure I2cIf where
  ctl : Nat
  addr : Nat
  tk_list0 : Nat
  tk_list1 : Nat
  wdata0 : Nat
  wdata1 : Nat
  rdata0 : Nat
  rdata1 : Nat
deriving Repr, DecidableEq

/-- Driver interface state (`i2c_ifState_t`): in-flight request/return
pointers (`none` = NULL), total and remaining token counts, direction flag
(`ddr`, true after ADDRR), deferred-notification flag. -/
structure IfState where
  current_req : Option Nat
  current_ret : Option Nat
  current_req_len : Nat
  remaining : Nat
  ddr : Bool
  notified : Bool
deriving Repr, DecidableEq

/-- Whole driver component state: interface state, hardware registers, the
driver's transport context, the byte store, plus the observable trace —
`notifs` records each `sel4cp_notify` channel and `loads` counts
`i2cLoadTokens` invocations (instrumentation only). -/
structure DriverState where
  ifState : IfState
  iface : I2cIf
  ctx : I2cCtx
  mem : Mem
  notifs : List Nat
  loads : Nat

/-- `i2cFlush` (i2c-odroid-c4.c): clear the two token-list registers
(the wdata/rdata/addr clears are commented out in the source). -/
def i2cFlush (r : I2cIf) : I2cIf := { r with tk_list0 := 0, tk_list1 := 0 }

/-- `i2cStart`: set the control register's start bit. -/
def i2cStart (r : I2cIf) : I2cIf :=
  { r with ctl := (r.ctl &&& 0xFFFFFFFE) ||| 0x1 }

/-- `i2cHalt`: clear the control register's start bit. -/
def i2cHalt (r : I2cIf) : I2cIf := { r with ctl := r.ctl &&& 0xFFFFFFFE }

/-- `i2cGetError`: from the control register — error bit 3, read count in
bits 8–11, current token in bits 4–7; an error yields the negated current
token, otherwise the read count. -/
def i2cGetError (ctl : Nat) : Int :=
  let err := ctl &&& (1 <<< 3)
  let rd := (ctl &&& 0xF00) >>> 8
  let tok := (ctl &&& 0xF0) >>> 4
  if err ≠ 0 then -(tok : Int) else (rd : Int)

/-- Token translation table of `i2cLoadTokens`' switch: portable token →
hardware token, plus the direction-flag update performed for ADDRW/ADDRR;
`none` for an unrecognised token (the `return -1` default). -/
def translateToken (tok : Nat) : Option (Nat × Option Bool) :=
  if tok = I2C_TK_END then some (OC4_I2C_TK_END, none)
  else if tok = I2C_TK_START then some (OC4_I2C_TK_START, none)
  else if tok = I2C_TK_ADDRW then some (OC4_I2C_TK_ADDRW, some false)
  else if tok = I2C_TK_ADDRR then some (OC4_I2C_TK_ADDRR, some true)
  else if tok = I2C_TK_DAT then some (OC4_I2C_TK_DATA, none)
  else if tok = I2C_TK_DATA_END then some (OC4_I2C_TK_DATA_END, none)
  else if tok = I2C_TK_STOP then some (OC4_I2C_TK_STOP, none)
  else none

/-- Loop state of `i2cLoadTokens`' while loop. -/
structure LoadLoopSt where
  iface : I2cIf
  tk_offset : Nat
  wdat_offset : Nat
  i : Nat
  ddr : Bool
deriving Repr

/-- The `while (tk_offset < 16 && wdat_offset < 8)` loop of
`i2cLoadTokens`: pad END tokens past the end of the stream, translate and
pack tokens into the two token-list registers, and for each DATA token in
write direction also pack the following stream byte into the write-data
registers.  Returns the final loop state and `false` when an invalid token
aborted the loop (the source's mid-loop `return -1`, with all register
writes so far kept). -/
def loadLoopF : Nat → Mem → Nat → Nat → LoadLoopSt → LoadLoopSt × Bool
  | 0, _, _, _, st => (st, true)
  | fuel + 1, m, reqPtr, len, ⟨ifc0, tk_offset, wdat_offset, i, ddr0⟩ =>
    if tk_offset < 16 ∧ wdat_offset < 8 then
      if i ≥ len then
        let ifc :=
          if tk_offset < 8 then
            { ifc0 with
              tk_list0 := ifc0.tk_list0 ||| (OC4_I2C_TK_END <<< (tk_offset * 4)) }
          else
            { ifc0 with
              tk_list1 := ifc0.tk_list1 ||| (OC4_I2C_TK_END <<< ((tk_offset - 8) * 4)) }
        loadLoopF fuel m reqPtr len ⟨ifc, tk_offset + 1, wdat_offset, i + 1, ddr0⟩
      else
        let tok := mread m (reqPtr + REQ_BUF_DAT_OFFSET + i)
        match translateToken tok with
        | none => (⟨ifc0, tk_offset, wdat_offset, i, ddr0⟩, false)
        | some (odroid_tok, dd) =>
          let ddr1 := dd.getD ddr0
          let ifc :=
            if tk_offset < 8 then
              { ifc0 with
                tk_list0 := ifc0.tk_list0 ||| ((odroid_tok &&& 0xF) <<< (tk_offset * 4)) }
            else
              { ifc0 with
                tk_list1 := ifc0.tk_list1 ||| (odroid_tok <<< ((tk_offset - 8) * 4)) }
          if odroid_tok = OC4_I2C_TK_DATA ∧ ddr1 = false then
            let dbyte := mread m (reqPtr + 2 + i + 1)
            let ifc2 :=
              if wdat_offset < 4 then
                { ifc with wdata0 := ifc.wdata0 ||| (dbyte <<< (wdat_offset * 8)) }
              else
                { ifc with wdata1 := ifc.wdata1 ||| (dbyte <<< ((wdat_offset - 4) * 8)) }
            loadLoopF fuel m reqPtr len
              ⟨ifc2, tk_offset + 1, wdat_offset + 1, i + 2, ddr1⟩
          else
            loadLoopF fuel m reqPtr len
              ⟨ifc, tk_offset + 1, wdat_offset, i + 1, ddr1⟩
    else (⟨ifc0, tk_offset, wdat_offset, i, ddr0⟩, true)

/-- The token loop entered with enough fuel for its 16 slots: the token
offset grows by one every iteration and the guard stops at 16, so 16
units of structural fuel are never exhausted before the guard fires. -/
def loadLoop (m : Mem) (reqPtr len : Nat) (st : LoadLoopSt) : LoadLoopSt × Bool :=
  loadLoopF 16 m reqPtr len st

/-- `i2cLoadTokens` (i2c-odroid-c4.c): reject a target address above the
7-bit range before touching any register; otherwise flush, program the
address register, clear the token/write-data registers, run the token
loop from the current stream offset, update `remaining`, and set the start
bit.  Result `none` models dereferencing a NULL current-request pointer;
otherwise the C return code is paired with the new state. -/
def i2cLoadTokens : DriverState → Option (DriverState × Int)
  | ⟨⟨cr, ct, len, rem, dd, nf⟩, ifc, ctx, m, ns, ld⟩ =>
    match cr with
    | none => none
    | some reqPtr =>
      let addr := mread m (reqPtr + REQ_BUF_ADDR)
      if addr > 0x7F then
        some (⟨⟨cr, ct, len, rem, dd, nf⟩, ifc, ctx, m, ns, ld + 1⟩, -1)
      else
        let if1 := i2cFlush ifc
        let if2 := { if1 with addr := if1.addr &&& 0xFFFFFF80 }
        let if3 := { if2 with addr := if2.addr ||| ((addr &&& 0x7F) <<< 1) }
        let if4 := { if3 with tk_list0 := 0, tk_list1 := 0, wdata0 := 0, wdata1 := 0 }
        let i0 := len - rem
        match loadLoop m reqPtr len ⟨if4, 0, 0, i0, dd⟩ with
        | (lst, false) =>
          some (⟨⟨cr, ct, len, rem, lst.ddr, nf⟩, lst.iface, ctx, m, ns, ld + 1⟩, -1)
        | (lst, true) =>
          let remaining1 := if len > lst.i then len - lst.i else 0
          some (⟨⟨cr, ct, len, remaining1, lst.ddr, nf⟩, i2cStart lst.iface,
            ctx, m, ns, ld + 1⟩, 0)

/-- `checkBuf` (i2c-odroid-c4.c): with work pending and a transaction in
flight, only record the deferred-notification flag; otherwise pop a
request and a return slot (dropping the request if no return slot is
free), copy client/address bookkeeping into the return buffer, validate
the recorded size (plain return on failure, buffers kept), populate the
interface state and trigger token loading. -/
def checkBuf : DriverState → Option DriverState
  | ⟨⟨cr, ct, len0, rem0, dd, nf⟩, ifc, ctx, m, ns, ld⟩ =>
    if reqBufEmpty ctx = false then
      if cr.isSome then
        some ⟨⟨cr, ct, len0, rem0, dd, true⟩, ifc, ctx, m, ns, ld⟩
      else
        match popReqBuf ctx with
        | (ctx1, none) => some ⟨⟨cr, ct, len0, rem0, dd, nf⟩, ifc, ctx1, m, ns, ld⟩
        | (ctx1, some (req, sz)) =>
          match getRetBuf ctx1 with
          | (ctx2, none) =>
            let ctx3 := (releaseReqBuf ctx2 req).1
            some ⟨⟨cr, ct, len0, rem0, dd, nf⟩, ifc, ctx3, m, ns, ld⟩
          | (ctx2, some ret) =>
            let m1 := mwrite m (ret + RET_BUF_CLIENT) (mread m (req + REQ_BUF_CLIENT))
            let m2 := mwrite m1 (ret + RET_BUF_ADDR) (mread m1 (req + REQ_BUF_ADDR))
            if sz ≤ REQ_BUF_DAT_OFFSET ∨ sz > I2C_BUF_SZ then
              some ⟨⟨cr, ct, len0, rem0, dd, nf⟩, ifc, ctx2, m2, ns, ld⟩
            else
              let st1 : IfState :=
                ⟨some req, some ret, sz - REQ_BUF_DAT_OFFSET,
                  sz - REQ_BUF_DAT_OFFSET, dd, false⟩
              match i2cLoadTokens ⟨st1, ifc, ctx2, m2, ns, ld⟩ with
              | none => none
              | some (s1, _) => some s1
    else
      some ⟨⟨cr, ct, len0, rem0, dd, false⟩, ifc, ctx, m, ns, ld⟩

/-- `serverNotify` (i2c-odroid-c4.c): the `for (i = 2; i < 4; i++)` loop
invokes `checkBuf` twice (its argument is unused). -/
def serverNotify (s : DriverState) : Option DriverState :=
  match checkBuf s with
  | none => none
  | some s1 => checkBuf s1

/-- Read-data copy loop of the completion IRQ: byte `i` of a successful
read comes from `rdata0` (first four) or `rdata1`. -/
def readCopyLoop (ifc : I2cIf) (m : Mem) (r cnt : Nat) : Mem :=
  (List.range cnt).foldl (fun m' i =>
    mwrite m' (r + RET_BUF_DAT_OFFSET + i)
      (if i < 4 then (ifc.rdata0 >>> (i * 8)) &&& 0xFF
       else (ifc.rdata1 >>> ((i - 4) * 8)) &&& 0xFF)) m

/-- `i2cirq` (i2c-odroid-c4.c).  The hardware's state at IRQ entry is an
observation: `ctlObs`/`rd0Obs`/`rd1Obs` overwrite the control and
read-data registers before the handler body runs.  The timeout branch
halts, marks a TIMEOUT return, pushes it, releases the request and clears
state — with no server notification.  The completion branch halts, reads
the error, fills the return buffer (error/err-token on NACK, payload copy
on a read), and, when an error occurred or no tokens remain, pushes the
return buffer, releases the request, clears state and signals the server;
finally, if the deferred flag is set or tokens remain, re-enters
`i2cLoadTokens`.  `none` models a NULL dereference (`ret`/`current_req`
used while cleared). -/
def i2cirq : DriverState → Bool → Nat → Nat → Nat → Option DriverState
  | ⟨⟨cr, ct, len, rem, dd, nf⟩, ifc, ctx, m, ns, ld⟩, timeout, ctlObs, rd0Obs, rd1Obs =>
    let ifcO := { ifc with ctl := ctlObs, rdata0 := rd0Obs, rdata1 := rd1Obs }
    if timeout then
      let ifcH := i2cHalt ifcO
      let (m2, ctx2) :=
        match ct with
        | some r =>
          let m1 := mwrite m (r + RET_BUF_ERR) I2C_ERR_TIMEOUT
          (mwrite m1 (r + RET_BUF_ERR_TK) 0x0, (pushRetBuf ctx r len).1)
        | none => (m, ctx)
      let ctx3 :=
        match cr with
        | some p => (releaseReqBuf ctx2 p).1
        | none => ctx2
      some ⟨⟨none, none, 0, 0, dd, nf⟩, ifcH, ctx3, m2, ns, ld⟩
    else
      let ifcH := i2cHalt ifcO
      let err := i2cGetError ifcH.ctl
      match ct with
      | none => none
      | some r =>
        let m' :=
          if err < 0 then
            -- (the source's `if (timeout)` arm here is dead: timeout is false)
            let e := if err = -(I2C_TK_ADDRR : Int) then I2C_ERR_NOREAD else I2C_ERR_NACK
            mwrite (mwrite m (r + RET_BUF_ERR) e) (r + RET_BUF_ERR_TK) (-err).toNat
          else
            let mData := if err > 0 then readCopyLoop ifcH m r err.toNat else m
            mwrite (mwrite mData (r + RET_BUF_ERR) I2C_ERR_OK) (r + RET_BUF_ERR_TK) 0x0
        let (st3, ifc3, ctx3, ns3) :=
          if err < 0 ∨ rem = 0 then
            ((⟨none, none, 0, 0, dd, nf⟩ : IfState), i2cHalt ifcH,
              (releaseReqBuf (pushRetBuf ctx r len).1 (cr.getD 0)).1,
              ns ++ [SERVER_NOTIFY_ID])
          else ((⟨cr, ct, len, rem, dd, nf⟩ : IfState), ifcH, ctx, ns)
        if st3.notified = true ∨ st3.remaining ≠ 0 then
          match i2cLoadTokens ⟨st3, ifc3, ctx3, m', ns3, ld⟩ with
          | none => none
          | some (s4, _) => some s4
        else some ⟨st3, ifc3, ctx3, m', ns3, ld⟩

/-- Pointwise function update (used for the per-client context array and
the security list). -/
def fupdate {α : Type} (f : Nat → α) (i : Nat) (v : α) : Nat → α :=
  fun j => if j = i then v else f j

/-- Server component state (`i2c.c` globals): the security list
(`-1` = unclaimed), the per-client transport contexts, the driver-facing
context, the byte store and the `sel4cp_notify` trace. -/
structure ServerState where
  security_list : Nat → Int
  contexts : Nat → I2cCtx
  driver_context : I2cCtx
  mem : Mem
  notifs : List Nat

/-- `init` (i2c.c): initialise the driver context (twice, as the source
does), each client context, and clear the security list. -/
def serverInit (s : ServerState) : ServerState :=
  let d1 := i2cTransportInit s.driver_context true
  let cs := (List.range NUM_CLIENTS).foldl
    (fun cs i => fupdate cs i (i2cTransportInit (cs i) true)) s.contexts
  let d2 := i2cTransportInit d1 true
  { s with driver_context := d2, contexts := cs,
           security_list := fun _ => -1 }

/-- `driverNotify` (i2c.c): pop a completed return buffer from the driver
context; reject an out-of-range client id (release, return); on a
hardware error only log and release; on success allocate a slot from that
client's return-free ring, `memcpy(ret, ret, sz)` — the source copies the
client buffer onto itself — notify the client, and release the driver's
return slot.  `none` models the unchecked NULL from `getRetBuf`. -/
def driverNotify (s : ServerState) : Option ServerState :=
  if retBufEmpty s.driver_context then some s
  else
    match popRetBuf s.driver_context with
    | (d1, none) => some { s with driver_context := d1 }
    | (d1, some (ret, sz)) =>
      let err := mread s.mem (ret + RET_BUF_ERR)
      let client := mread s.mem (ret + RET_BUF_CLIENT)
      if client ≥ 128 then
        let (d2, _) := releaseRetBuf d1 ret
        some { s with driver_context := d2 }
      else if err ≠ 0 then
        let (d2, _) := releaseRetBuf d1 ret
        some { s with driver_context := d2 }
      else
        match getRetBuf (s.contexts client) with
        | (_, none) => none
        | (c1, some cret) =>
          let m1 := memcpyMem s.mem cret cret sz
          let (d2, _) := releaseRetBuf d1 ret
          some { s with contexts := fupdate s.contexts client c1,
                        driver_context := d2, mem := m1,
                        notifs := s.notifs ++ [client] }

/-- `clientNotify` (i2c.c): guard the channel id, pop one request from the
client's context, drop it (with release) when the security list does not
map its address byte to this client, otherwise re-wrap it into the
driver-facing context via `serverAllocReqBuf` tagged with the channel id —
releasing the client's buffer only when that admission fails. -/
def clientNotify (s : ServerState) (channel : Nat) : ServerState :=
  if channel > NUM_CLIENTS then s
  else
    let context := s.contexts channel
    if reqBufEmpty context then s
    else
      match popReqBuf context with
      | (_, none) => s
      | (c1, some (req, sz)) =>
        let addr := mread s.mem (req + REQ_BUF_ADDR)
        if s.security_list addr ≠ (channel : Int) then
          let (c2, _) := releaseReqBuf c1 req
          { s with contexts := fupdate s.contexts channel c2 }
        else
          match serverAllocReqBuf s.driver_context s.mem sz req channel addr with
          | ((d1, m1), none) =>
            let (c2, _) := releaseReqBuf c1 req
            { s with contexts := fupdate s.contexts channel c2,
                     driver_context := d1, mem := m1 }
          | ((d1, m1), some _) =>
            { s with contexts := fupdate s.contexts channel c1,
                     driver_context := d1, mem := m1 }

/-- `notified` (i2c.c): dispatch to `driverNotify` or `clientNotify`, then
ping the driver whenever its request-used ring is non-empty. -/
def serverNotified (s : ServerState) (c : Nat) : Option ServerState :=
  let s1? := if c = DRIVER_NOTIFY_ID then driverNotify s else some (clientNotify s c)
  match s1? with
  | none => none
  | some s1 =>
    if reqBufEmpty s1.driver_context then some s1
    else some { s1 with notifs := s1.notifs ++ [DRIVER_NOTIFY_ID] }

/-- `securityClaim` (i2c.c): fail (message-register value `-1`) when the
address is already claimed, otherwise record `addr → client` and return
`0`. -/
def securityClaim (sl : Nat → Int) (addr : Nat) (client : Nat) :
    Int × (Nat → Int) :=
  if sl addr ≠ -1 then (-1, sl)
  else (0, fupdate sl addr (client : Int))

/-- `securityRelease` (i2c.c): fail unless the list maps the address to
this client, otherwise mark it unclaimed. -/
def securityRelease (sl : Nat → Int) (addr : Nat) (client : Nat) :
    Int × (Nat → Int) :=
  if sl addr ≠ (client : Int) then (-1, sl)
  else (0, fupdate sl addr (-1))

/-- `protected` (i2c.c): validate the request type with
`req != I2C_PPC_CLAIM || req != I2C_PPC_RELEASE` (as written in the
source), validate the address range, then dispatch on the request type;
the trailing unreachable `return` is modelled by the `7` result. -/
def protectedCall (sl : Nat → Int) (req ppc_addr client_pd : Nat) :
    Int × (Nat → Int) :=
  if req ≠ I2C_PPC_CLAIM ∨ req ≠ I2C_PPC_RELEASE then (-1, sl)
  else if ppc_addr > 127 then (-1, sl)
  else if req = I2C_PPC_CLAIM then securityClaim sl ppc_addr client_pd
  else if req = I2C_PPC_RELEASE then securityRelease sl ppc_addr client_pd
  else (7, sl)

/-! ## Basic memory lemmas -/

theorem mwrite_self (m : Mem) (a v : Nat) : mwrite m a v a = v % 256 := by
  simp [mwrite]

theorem mwrite_other (m : Mem) (a v x : Nat) (h : x ≠ a) :
    mwrite m a v x = m x := by
  simp [mwrite, h]

theorem mread_mwrite_self (m : Mem) (a v : Nat) :
    mread (mwrite m a v) a = v % 256 := by
  simp [mread, mwrite]

theorem mread_mwrite_other (m : Mem) (a v x : Nat) (h : x ≠ a) :
    mread (mwrite m a v) x = mread m x := by
  simp [mread, mwrite, h]

theorem memcpyMem_below (m : Mem) (dst src n x : Nat) (h : x < dst) :
    memcpyMem m dst src n x = m x := by
  induction n generalizing m dst src with
  | zero => rfl
  | succ k ih =>
    rw [memcpyMem, ih _ _ _ (by omega), mwrite_other]
    omega

theorem clientWriteLoopF_below (fuel : Nat) (m : Mem) (buf data size i d x : Nat)
    (h : x < buf + i) : clientWriteLoopF fuel m buf data size i d x = m x := by
  induction fuel generalizing m i d with
  | zero => rfl
  | succ k ih =>
    simp only [clientWriteLoopF]
    split
    · rw [ih _ _ _ (by omega),
        mwrite_other _ _ _ _ (by omega), mwrite_other _ _ _ _ (by omega)]
    · rfl

theorem clientWriteLoop_below (m : Mem) (buf data size i d x : Nat)
    (h : x < buf + i) : clientWriteLoop m buf data size i d x = m x :=
  clientWriteLoopF_below _ m buf data size i d x h

theorem clientReadLoopF_below (fuel : Nat) (m : Mem) (buf size i x : Nat)
    (h : x < buf + i) : clientReadLoopF fuel m buf size i x = m x := by
  induction fuel generalizing m i with
  | zero => rfl
  | succ k ih =>
    simp only [clientReadLoopF]
    split
    · rw [ih _ _ (by omega), mwrite_other _ _ _ _ (by omega)]
    · rfl

theorem clientReadLoop_below (m : Mem) (buf size i x : Nat)
    (h : x < buf + i) : clientReadLoop m buf size i x = m x :=
  clientReadLoopF_below _ m buf size i x h

/-! ## C7 — administrative claim calls -/

/-- Supporting fact: `securityClaim` in isolation does implement the
claim's contract — it succeeds (result `0`, recording `addr → client`)
exactly when the address is unclaimed, and fails with `-1` leaving the
list unchanged otherwise. -/
theorem securityClaim_contract (sl : Nat → Int) (addr client : Nat) :
    (sl addr = -1 →
      securityClaim sl addr client = (0, fupdate sl addr (client : Int))) ∧
    (sl addr ≠ -1 → securityClaim sl addr client = (-1, sl)) := by
  constructor <;> intro h <;> simp [securityClaim, h]

/-- C7: the claim fails on the code.  `protected` in i2c.c validates the
request type with `req != I2C_PPC_CLAIM || req != I2C_PPC_RELEASE`, which
is true for every value of `req`; hence every PPC call — including a
well-formed claim of an unclaimed in-range address — returns the generic
failure and never mutates the security list.  The `securityClaim` branch
below the check is dead code. -/
theorem C7_protected_always_fails (sl : Nat → Int) (req ppc_addr client_pd : Nat) :
    protectedCall sl req ppc_addr client_pd = (-1, sl) := by
  unfold protectedCall
  by_cases h : req = I2C_PPC_CLAIM
  · have : req ≠ I2C_PPC_RELEASE := by
      rw [h]; decide
    simp [this]
  · simp [h]

/-! ## C10 — client-id byte assignment -/

/-- Every successful run of the shared tail of `clientAllocReqBuf` leaves
`0` in the client-id byte: the header write stores `0` and all later
writes target offsets `≥ 1`. -/
theorem clientAllocBody_client_byte (ctx : I2cCtx) (m : Mem)
    (size data addr mode buf : Nat)
    (hsome : (clientAllocReqBuf.clientAllocReqBufBody ctx m size data addr mode).2
      = some buf) :
    mread (clientAllocReqBuf.clientAllocReqBufBody ctx m size data addr mode).1.2
      (buf + REQ_BUF_CLIENT) = 0 := by
  obtain ⟨⟨⟨fentries⟩, fused⟩, retR, db⟩ := ctx
  unfold clientAllocReqBuf.clientAllocReqBufBody at hsome ⊢
  rcases fentries with _ | ⟨⟨b0, s0⟩, rest⟩
  · simp [dequeue] at hsome
  · by_cases hfull : fused.entries.length ≥ RING_SIZE
    · simp [dequeue, enqueue, hfull] at hsome
    · simp only [dequeue, enqueue, if_neg hfull] at hsome ⊢
      simp only [Option.some_inj] at hsome
      subst hsome
      simp only [REQ_BUF_CLIENT, Nat.add_zero]
      have hne1 : b0 ≠ b0 + size + REQ_BUF_DAT_OFFSET + 1 := by
        simp only [REQ_BUF_DAT_OFFSET]; omega
      have hne2 : b0 ≠ b0 + size + REQ_BUF_DAT_OFFSET := by
        simp only [REQ_BUF_DAT_OFFSET]; omega
      have hlt1 : b0 < b0 + (REQ_BUF_DAT_OFFSET + 1) := by
        simp only [REQ_BUF_DAT_OFFSET]; omega
      have hne3 : b0 ≠ b0 + REQ_BUF_DAT_OFFSET := by
        simp only [REQ_BUF_DAT_OFFSET]; omega
      have hne4 : b0 ≠ b0 + REQ_BUF_ADDR := by
        simp only [REQ_BUF_ADDR]; omega
      by_cases hw : mode = I2C_MODE_WRITE ∨ mode = I2C_MODE_WRITE_CONT
      · simp only [hw, decide_True, if_true]
        have hc : mread (mwrite (mwrite (mwrite m b0 0) (b0 + REQ_BUF_ADDR) addr)
            (b0 + REQ_BUF_DAT_OFFSET) I2C_TK_ADDRW) (b0 + REQ_BUF_DAT_OFFSET)
            = I2C_TK_ADDRW := by rw [mread_mwrite_self]; decide
        by_cases hcont : mode = I2C_MODE_READ_CONT ∨ mode = I2C_MODE_WRITE_CONT
        · rw [if_pos hcont, if_pos hc]
          simp only [mread]
          rw [mwrite_other _ _ _ _ hne1,
            clientWriteLoop_below _ _ _ _ _ _ _ hlt1,
            mwrite_other _ _ _ _ hne3, mwrite_other _ _ _ _ hne4, mwrite_self]
        · rw [if_neg hcont, if_pos hc]
          simp only [mread]
          rw [clientWriteLoop_below _ _ _ _ _ _ _ hlt1,
            mwrite_other _ _ _ _ hne3, mwrite_other _ _ _ _ hne4, mwrite_self]
      · simp only [hw, decide_False, Bool.false_eq_true, if_false]
        have hcn : ¬ mread (mwrite (mwrite (mwrite m b0 0) (b0 + REQ_BUF_ADDR) addr)
            (b0 + REQ_BUF_DAT_OFFSET) I2C_TK_ADDRR) (b0 + REQ_BUF_DAT_OFFSET)
            = I2C_TK_ADDRW := by rw [mread_mwrite_self]; decide
        by_cases hcont : mode = I2C_MODE_READ_CONT ∨ mode = I2C_MODE_WRITE_CONT
        · rw [if_pos hcont, if_neg hcn]
          simp only [mread]
          rw [mwrite_other _ _ _ _ hne1, mwrite_other _ _ _ _ hne2,
            clientReadLoop_below _ _ _ _ _ hlt1,
            mwrite_other _ _ _ _ hne3, mwrite_other _ _ _ _ hne4, mwrite_self]
        · rw [if_neg hcont, if_neg hcn]
          simp only [mread]
          rw [mwrite_other _ _ _ _ hne2,
            clientReadLoop_below _ _ _ _ _ hlt1,
            mwrite_other _ _ _ _ hne3, mwrite_other _ _ _ _ hne4, mwrite_self]

/-- C10: the CLIENT_ID byte of every admitted driver-facing request is
server-assigned.  (1) `clientAllocReqBuf` always stores `0` in the
client-id byte of the slot it returns, whatever the caller supplies; (2)
`serverAllocReqBuf` stores its `client` argument (the notification
channel id) there, overwriting anything the client placed in the copied
payload region, which starts at offset `REQ_BUF_DAT_OFFSET`. -/
theorem C10_client_id_is_server_assigned :
    (∀ (ctx : I2cCtx) (m : Mem) (size data addr mode buf : Nat),
      (clientAllocReqBuf ctx m size data addr mode).2 = some buf →
      mread (clientAllocReqBuf ctx m size data addr mode).1.2
        (buf + REQ_BUF_CLIENT) = 0) ∧
    (∀ (ctx : I2cCtx) (m : Mem) (size data client addr buf : Nat),
      (serverAllocReqBuf ctx m size data client addr).2 = some buf →
      mread (serverAllocReqBuf ctx m size data client addr).1.2
        (buf + REQ_BUF_CLIENT) = client % 256) := by
  constructor
  · intro ctx m size data addr mode buf hsome
    unfold clientAllocReqBuf at hsome ⊢
    split at hsome
    · split at hsome
      · simp at hsome
      · simp only [*, if_true, if_false]
        exact clientAllocBody_client_byte _ _ _ _ _ _ _ hsome
    · split at hsome
      · simp at hsome
      · simp only [*, if_true, if_false]
        exact clientAllocBody_client_byte _ _ _ _ _ _ _ hsome
  · intro ctx m size data client addr buf hsome
    obtain ⟨⟨⟨fentries⟩, fused⟩, retR, db⟩ := ctx
    unfold serverAllocReqBuf at hsome ⊢
    by_cases hsz : size > I2C_BUF_SZ - REQ_BUF_DAT_OFFSET
    · simp [hsz] at hsome
    · rcases fentries with _ | ⟨⟨b0, s0⟩, rest⟩
      · simp [hsz, dequeue] at hsome
      · by_cases hfull : fused.entries.length ≥ RING_SIZE
        · simp [hsz, dequeue, enqueue, hfull] at hsome
        · simp only [if_neg hsz, dequeue, enqueue, if_neg hfull] at hsome ⊢
          simp only [Option.some_inj] at hsome
          subst hsome
          simp only [REQ_BUF_CLIENT, Nat.add_zero, mread]
          rw [memcpyMem_below _ _ _ _ _ (by simp only [REQ_BUF_DAT_OFFSET]; omega),
            mwrite_other _ _ _ _ (by simp only [REQ_BUF_ADDR]; omega),
            mwrite_self]
          omega

/-! ## Concrete fixtures shared by witnesses -/

/-- A transport context with a single free request slot at address 100. -/
def wCtx : I2cCtx := ⟨⟨⟨[(100, I2C_BUF_SZ)]⟩, ⟨[]⟩⟩, ⟨⟨[]⟩, ⟨[]⟩⟩, 0⟩

/-- All-zero byte store. -/
def wMem : Mem := fun _ => 0

theorem C10_witness :
    ((clientAllocReqBuf wCtx wMem 2 300 0x50 I2C_MODE_WRITE).2 = some 100 ∧
      mread (clientAllocReqBuf wCtx wMem 2 300 0x50 I2C_MODE_WRITE).1.2
        (100 + REQ_BUF_CLIENT) = 0) ∧
    ((serverAllocReqBuf wCtx wMem 2 300 7 0x50).2 = some 100 ∧
      mread (serverAllocReqBuf wCtx wMem 2 300 7 0x50).1.2
        (100 + REQ_BUF_CLIENT) = 7 % 256) :=
  ⟨⟨by decide,
    C10_client_id_is_server_assigned.1 wCtx wMem 2 300 0x50 I2C_MODE_WRITE 100 (by decide)⟩,
   ⟨by decide,
    C10_client_id_is_server_assigned.2 wCtx wMem 2 300 7 0x50 100 (by decide)⟩⟩

/-! ## Control-register arithmetic -/

theorem and_mask_halt_8 (a : Nat) : (a &&& 0xFFFFFFFE) &&& 8 = a &&& 8 := by
  rw [Nat.and_assoc]
  norm_num [show (4294967294 &&& 8 : Nat) = 8 from by decide]

theorem and_mask_halt_f00 (a : Nat) : (a &&& 0xFFFFFFFE) &&& 0xF00 = a &&& 0xF00 := by
  rw [Nat.and_assoc]
  norm_num [show (4294967294 &&& 0xF00 : Nat) = 0xF00 from by decide]

theorem and_mask_halt_f0 (a : Nat) : (a &&& 0xFFFFFFFE) &&& 0xF0 = a &&& 0xF0 := by
  rw [Nat.and_assoc]
  norm_num [show (4294967294 &&& 0xF0 : Nat) = 0xF0 from by decide]

/-- Halting the list processor (clearing the start bit) does not change
what `i2cGetError` reads: the error, token and count fields live in
higher bits. -/
theorem i2cGetError_halt (ctl : Nat) :
    i2cGetError (ctl &&& 0xFFFFFFFE) = i2cGetError ctl := by
  unfold i2cGetError
  rw [show ((1 : Nat) <<< 3) = 8 from by decide,
    and_mask_halt_8, and_mask_halt_f00, and_mask_halt_f0]

/-- The hardware current-token field is a nibble. -/
theorem tok_field_lt (ctl : Nat) : (ctl &&& 0xF0) >>> 4 ≤ 15 := by
  have h : ctl &&& 0xF0 ≤ 0xF0 := Nat.and_le_right
  rw [Nat.shiftRight_eq_div_pow]
  omega

/-- With the error bit set, `i2cGetError` returns the negated
current-token field. -/
theorem i2cGetError_of_err (ctl : Nat) (herr : ctl &&& 8 ≠ 0) :
    i2cGetError ctl = -(((ctl &&& 0xF0) >>> 4 : Nat) : Int) := by
  unfold i2cGetError
  rw [show ((1 : Nat) <<< 3) = 8 from by decide, if_pos herr]

/-- With the error bit clear, `i2cGetError` returns the read count. -/
theorem i2cGetError_of_ok (ctl : Nat) (herr : ctl &&& 8 = 0) :
    i2cGetError ctl = (((ctl &&& 0xF00) >>> 8 : Nat) : Int) := by
  unfold i2cGetError
  rw [show ((1 : Nat) <<< 3) = 8 from by decide, if_neg (by simp [herr])]

/-! ## Characterisation of the completion IRQ handler -/

/-- The return-buffer contents written by the completion IRQ (error or
success data), exactly as in `i2cirq`. -/
def irqRetMem (ifc1 : I2cIf) (m : Mem) (r : Nat) (err : Int) : Mem :=
  if err < 0 then
    mwrite (mwrite m (r + RET_BUF_ERR)
      (if err = -(I2C_TK_ADDRR : Int) then I2C_ERR_NOREAD else I2C_ERR_NACK))
      (r + RET_BUF_ERR_TK) (-err).toNat
  else
    mwrite (mwrite (if err > 0 then readCopyLoop ifc1 m r err.toNat else m)
      (r + RET_BUF_ERR) I2C_ERR_OK) (r + RET_BUF_ERR_TK) 0x0

/-- A completion IRQ (no timeout) on an in-flight transaction whose
deferred flag is clear, when the status shows an error or no tokens
remain: the handler pushes the return buffer, releases the request
buffer, clears the interface state and emits exactly one server
notification. -/
theorem i2cirq_completion_eq (p r len rem : Nat) (dd : Bool) (ifc : I2cIf)
    (ctx : I2cCtx) (m : Mem) (ns : List Nat) (ld : Nat) (ctlObs rd0 rd1 : Nat)
    (hcomp : i2cGetError (ctlObs &&& 0xFFFFFFFE) < 0 ∨ rem = 0) :
    i2cirq ⟨⟨some p, some r, len, rem, dd, false⟩, ifc, ctx, m, ns, ld⟩
      false ctlObs rd0 rd1
    = some ⟨⟨none, none, 0, 0, dd, false⟩,
        i2cHalt (i2cHalt { ifc with ctl := ctlObs, rdata0 := rd0, rdata1 := rd1 }),
        (releaseReqBuf (pushRetBuf ctx r len).1 p).1,
        irqRetMem (i2cHalt { ifc with ctl := ctlObs, rdata0 := rd0, rdata1 := rd1 })
          m r (i2cGetError (ctlObs &&& 0xFFFFFFFE)),
        ns ++ [SERVER_NOTIFY_ID], ld⟩ := by
  unfold i2cirq irqRetMem
  simp only [Bool.false_eq_true, if_false, i2cHalt, Option.getD]
  rcases hPush : pushRetBuf ctx r len with ⟨ctx1, rc1⟩
  rcases hRel : releaseReqBuf ctx1 p with ⟨ctx2, rc2⟩
  rw [if_pos hcomp]
  simp

/-- A completion IRQ on an in-flight transaction with a non-error status
and tokens remaining: no notification is emitted, the state stays
in-flight, and token loading is re-entered for the next chunk. -/
theorem i2cirq_continuation_eq (p r len rem : Nat) (dd : Bool) (ifc : I2cIf)
    (ctx : I2cCtx) (m : Mem) (ns : List Nat) (ld : Nat) (ctlObs rd0 rd1 : Nat)
    (herr : ¬ i2cGetError (ctlObs &&& 0xFFFFFFFE) < 0) (hrem : rem ≠ 0) :
    i2cirq ⟨⟨some p, some r, len, rem, dd, false⟩, ifc, ctx, m, ns, ld⟩
      false ctlObs rd0 rd1
    = (i2cLoadTokens ⟨⟨some p, some r, len, rem, dd, false⟩,
        i2cHalt { ifc with ctl := ctlObs, rdata0 := rd0, rdata1 := rd1 },
        ctx,
        irqRetMem (i2cHalt { ifc with ctl := ctlObs, rdata0 := rd0, rdata1 := rd1 })
          m r (i2cGetError (ctlObs &&& 0xFFFFFFFE)),
        ns, ld⟩).map Prod.fst := by
  unfold i2cirq irqRetMem
  simp only [Bool.false_eq_true, if_false, i2cHalt]
  rw [if_neg (not_or.mpr ⟨herr, hrem⟩), if_pos (Or.inr hrem)]
  split <;> simp_all

/-- `i2cLoadTokens` on a state with a current request: it succeeds as an
`Option`, leaves the transport rings, the byte store, the notification
trace and the in-flight pointers unchanged, and bumps the load counter. -/
theorem i2cLoadTokens_frame (st : IfState) (p : Nat) (ifc : I2cIf)
    (ctx : I2cCtx) (m : Mem) (ns : List Nat) (ld : Nat)
    (hp : st.current_req = some p) :
    ∃ s' rc, i2cLoadTokens ⟨st, ifc, ctx, m, ns, ld⟩ = some (s', rc) ∧
      s'.notifs = ns ∧ s'.ifState.current_req = some p ∧
      s'.ifState.current_ret = st.current_ret ∧
      s'.loads = ld + 1 ∧ s'.ctx = ctx ∧ s'.mem = m := by
  obtain ⟨cr, ct, clen, crem, dd, nf⟩ := st
  obtain rfl : cr = some p := hp
  unfold i2cLoadTokens
  simp only
  by_cases ha : mread m (p + REQ_BUF_ADDR) > 0x7F
  · rw [if_pos ha]
    exact ⟨_, _, rfl, rfl, rfl, rfl, rfl, rfl, rfl⟩
  · rw [if_neg ha]
    rcases hL : loadLoop m p clen
      ⟨{ i2cFlush ifc with
           addr := (i2cFlush ifc).addr &&& 0xFFFFFF80 |||
             ((mread m (p + REQ_BUF_ADDR) &&& 0x7F) <<< 1),
           tk_list0 := 0, tk_list1 := 0, wdata0 := 0, wdata1 := 0 },
        0, 0, clen - crem, dd⟩ with ⟨lst, ok⟩
    cases ok
    · exact ⟨_, _, rfl, rfl, rfl, rfl, rfl, rfl, rfl⟩
    · exact ⟨_, _, rfl, rfl, rfl, rfl, rfl, rfl, rfl⟩

/-! ## C3 — NACK error reporting -/

/-- C3 (amended): for every completion IRQ whose control register reports
an error on a nonzero current token `k`, the handler records NO_READ when
`k` is the address-read token and NACK otherwise, and stores `k` in the
return buffer's error-token byte.  (The `k = 0` case is excluded: there
`i2cGetError` returns `-0 = 0` and the error is misread as a successful
write — see the counterexample.) -/
theorem C3_nack_error_fields (p r len rem : Nat) (dd : Bool) (ifc : I2cIf)
    (ctx : I2cCtx) (m : Mem) (ns : List Nat) (ld : Nat) (ctlObs rd0 rd1 : Nat)
    (herr : ctlObs &&& 8 ≠ 0) (htok : (ctlObs &&& 0xF0) >>> 4 ≠ 0) :
    (i2cirq ⟨⟨some p, some r, len, rem, dd, false⟩, ifc, ctx, m, ns, ld⟩
      false ctlObs rd0 rd1).map
      (fun s' => (mread s'.mem (r + RET_BUF_ERR), mread s'.mem (r + RET_BUF_ERR_TK)))
    = some (if (ctlObs &&& 0xF0) >>> 4 = I2C_TK_ADDRR then I2C_ERR_NOREAD
            else I2C_ERR_NACK,
            (ctlObs &&& 0xF0) >>> 4) := by
  have hk15 : (ctlObs &&& 0xF0) >>> 4 ≤ 15 := tok_field_lt ctlObs
  have hg : i2cGetError (ctlObs &&& 0xFFFFFFFE)
      = -(((ctlObs &&& 0xF0) >>> 4 : Nat) : Int) := by
    rw [i2cGetError_halt, i2cGetError_of_err _ herr]
  have hneg : i2cGetError (ctlObs &&& 0xFFFFFFFE) < 0 := by
    rw [hg]; omega
  rw [i2cirq_completion_eq p r len rem dd ifc ctx m ns ld ctlObs rd0 rd1
    (Or.inl hneg)]
  unfold irqRetMem
  rw [hg, if_pos (show -(((ctlObs &&& 0xF0) >>> 4 : Nat) : Int) < 0 by omega)]
  simp only [Option.map_some', Option.some_inj, Prod.mk.injEq, neg_neg,
    Int.toNat_natCast, neg_inj, Nat.cast_inj]
  constructor
  · rw [mread_mwrite_other _ _ _ _
      (by simp only [RET_BUF_ERR, RET_BUF_ERR_TK]; omega), mread_mwrite_self]
    split <;> decide
  · rw [mread_mwrite_self]
    omega

/-- All-zero hardware interface registers. -/
def wIfc : I2cIf := ⟨0, 0, 0, 0, 0, 0, 0, 0⟩

/-- A transport context with all four rings empty. -/
def wDrvCtx : I2cCtx := ⟨⟨⟨[]⟩, ⟨[]⟩⟩, ⟨⟨[]⟩, ⟨[]⟩⟩, 0⟩

/-- C3 counterexample: a completion IRQ whose control register has the
error bit set but current-token field `0` (control value `8`).  The claim
says every error-reporting status yields a negative token identifier and
a NACK/NO_READ error code; the code computes `-0 = 0` in `i2cGetError`
and takes the success path, recording `I2C_ERR_OK` in the return
buffer. -/
theorem C3_counterexample :
    (8 &&& 8 ≠ 0) ∧
    (i2cirq ⟨⟨some 100, some 200, 3, 0, false, false⟩, wIfc, wDrvCtx, wMem, [], 0⟩
      false 8 0 0).map (fun s' => mread s'.mem (200 + RET_BUF_ERR))
      = some I2C_ERR_OK := by
  constructor
  · decide
  · decide

theorem C3_witness :
    ((0x38 &&& 8 ≠ 0) ∧ ((0x38 &&& 0xF0) >>> 4 ≠ 0)) ∧
    (i2cirq ⟨⟨some 100, some 200, 3, 0, false, false⟩, wIfc, wDrvCtx, wMem, [], 0⟩
      false 0x38 0 0).map
      (fun s' => (mread s'.mem (200 + RET_BUF_ERR), mread s'.mem (200 + RET_BUF_ERR_TK)))
    = some (if (0x38 &&& 0xF0) >>> 4 = I2C_TK_ADDRR then I2C_ERR_NOREAD
            else I2C_ERR_NACK,
            (0x38 &&& 0xF0) >>> 4) :=
  ⟨⟨by decide, by decide⟩,
    C3_nack_error_fields 100 200 3 0 false wIfc wDrvCtx wMem [] 0 0x38 0 0
      (by decide) (by decide)⟩

/-! ## C2 — one notification per completed/aborted transaction -/

/-- Token stream of a 10-byte write: `[client][addr=0x50][ADDRW]` then ten
DATA/byte pairs — 21 stream tokens, 23 buffer bytes, exceeding one
hardware list load (16 token slots, 8 write lanes). -/
def c2mem : Mem :=
  (([(1000, 0), (1001, 0x50), (1002, I2C_TK_ADDRW)] :
      List (Nat × Nat)) ++
    (List.range 10).map (fun k => (1003 + 2 * k, I2C_TK_DAT)) ++
    (List.range 10).map (fun k => (1004 + 2 * k, 10 + k))).foldl
    (fun (m : Mem) (p : Nat × Nat) => mwrite m p.1 p.2) wMem

/-- Driver context holding that single pending request and one free
return slot. -/
def c2ctx : I2cCtx :=
  ⟨⟨⟨[]⟩, ⟨[(1000, 23)]⟩⟩, ⟨⟨[(2000, I2C_BUF_SZ)]⟩, ⟨[]⟩⟩, 0⟩

/-- Idle driver about to be notified of the 10-byte write. -/
def c2s0 : DriverState := ⟨⟨none, none, 0, 0, false, false⟩, wIfc, c2ctx, c2mem, [], 0⟩

set_option maxHeartbeats 4000000 in
set_option synthInstance.maxSize 2000 in
/-- C2 (amended): a completion IRQ on an in-flight transaction (deferred
flag clear) emits exactly one server notification when the status shows
an error or no tokens remain — pushing the return buffer, releasing the
request buffer and clearing the interface state — while a chunk
continuation (no error, tokens remaining) emits none and re-enters token
loading.  The 10-byte write scenario follows: the third conjunct shows
the server notification triggers the first LOADING pass, leaving 4 of
the 21 stream tokens and no notification; by the second conjunct the
completion IRQ of that chunk (success, tokens remaining) emits nothing
and re-enters `i2cLoadTokens`; the fourth conjunct shows that second
LOADING pass consumes the rest (remaining 0); by the first conjunct the
final IRQ emits exactly one notification — two passes, one
notification.  (As amended, the timeout-abort path pushes, releases and
clears but emits no notification — see the counterexample.) -/
theorem C2_single_notification_per_transaction :
    (∀ (p r len rem : Nat) (dd : Bool) (ifc : I2cIf) (ctx : I2cCtx) (m : Mem)
       (ns : List Nat) (ld : Nat) (ctlObs rd0 rd1 : Nat),
      i2cGetError (ctlObs &&& 0xFFFFFFFE) < 0 ∨ rem = 0 →
      (i2cirq ⟨⟨some p, some r, len, rem, dd, false⟩, ifc, ctx, m, ns, ld⟩
        false ctlObs rd0 rd1).map
        (fun s' => (s'.notifs, s'.ifState.current_req, s'.ifState.current_ret,
          s'.ifState.remaining, s'.ctx))
      = some (ns ++ [SERVER_NOTIFY_ID], none, none, 0,
          (releaseReqBuf (pushRetBuf ctx r len).1 p).1)) ∧
    (∀ (p r len rem : Nat) (dd : Bool) (ifc : I2cIf) (ctx : I2cCtx) (m : Mem)
       (ns : List Nat) (ld : Nat) (ctlObs rd0 rd1 : Nat),
      ¬ i2cGetError (ctlObs &&& 0xFFFFFFFE) < 0 → rem ≠ 0 →
      (i2cirq ⟨⟨some p, some r, len, rem, dd, false⟩, ifc, ctx, m, ns, ld⟩
        false ctlObs rd0 rd1).map
        (fun s' => (s'.notifs, s'.ifState.current_req, s'.loads))
      = some (ns, some p, ld + 1)) ∧
    (serverNotify c2s0).map
      (fun s => (s.loads, s.ifState.remaining, s.ifState.current_req,
        s.ifState.current_ret, s.ifState.notified, s.notifs))
      = some (1, 4, some 1000, some 2000, false, []) ∧
    (i2cLoadTokens ⟨⟨some 1000, some 2000, 21, 4, false, false⟩, wIfc, wDrvCtx,
        c2mem, [], 1⟩).map
      (fun q => (q.1.loads, q.1.ifState.remaining, q.1.notifs))
      = some (2, 0, []) := by
  refine ⟨?_, ?_, ?_, ?_⟩
  · intro p r len rem dd ifc ctx m ns ld ctlObs rd0 rd1 hcomp
    rw [i2cirq_completion_eq p r len rem dd ifc ctx m ns ld ctlObs rd0 rd1 hcomp]
    rfl
  · intro p r len rem dd ifc ctx m ns ld ctlObs rd0 rd1 herr hrem
    rw [i2cirq_continuation_eq p r len rem dd ifc ctx m ns ld ctlObs rd0 rd1 herr hrem]
    obtain ⟨s', rc, heq, hn, hcr, hct, hld, hctx, hm⟩ :=
      i2cLoadTokens_frame ⟨some p, some r, len, rem, dd, false⟩ p
        (i2cHalt { ifc with ctl := ctlObs, rdata0 := rd0, rdata1 := rd1 })
        ctx
        (irqRetMem (i2cHalt { ifc with ctl := ctlObs, rdata0 := rd0, rdata1 := rd1 })
          m r (i2cGetError (ctlObs &&& 0xFFFFFFFE)))
        ns ld rfl
    rw [heq]
    simp only [Option.map_map, Option.map_some', Function.comp, Option.some_inj]
    rw [hn, hcr, hld]
  · decide
  · decide

theorem C2_witness :
    (i2cGetError (0 &&& 0xFFFFFFFE) < 0 ∨ (0 : Nat) = 0) ∧
    (i2cirq ⟨⟨some 100, some 200, 5, 0, false, false⟩, wIfc, wDrvCtx, wMem, [], 0⟩
      false 0 0 0).map
      (fun s' => (s'.notifs, s'.ifState.current_req, s'.ifState.current_ret,
        s'.ifState.remaining, s'.ctx))
    = some ([] ++ [SERVER_NOTIFY_ID], none, none, 0,
        (releaseReqBuf (pushRetBuf wDrvCtx 200 5).1 100).1) :=
  ⟨Or.inr rfl,
    C2_single_notification_per_transaction.1 100 200 5 0 false wIfc wDrvCtx wMem
      [] 0 0 0 0 (Or.inr rfl)⟩

/-- C2 counterexample: the timeout-abort path.  A timeout IRQ on an
in-flight transaction pushes a TIMEOUT return buffer to the return-used
ring, releases the request and clears the interface state — an aborted
transaction — yet emits no server notification, contradicting the
claim's "exactly one notification ... (including the timeout-abort
path)". -/
theorem C2_counterexample :
    (i2cirq ⟨⟨some 100, some 200, 5, 5, false, false⟩, wIfc, wDrvCtx, wMem, [], 0⟩
      true 0 0 0).map
      (fun s' => (s'.notifs, s'.ctx.retRing.used.entries, s'.ifState.current_req))
    = some ([], [(200, I2C_BUF_SZ)], none) := by
  decide

/-! ## C4 — rejection of out-of-range addresses -/

/-- C4 (amended): a pending request whose target-address byte exceeds the
7-bit range is rejected by `i2cLoadTokens` before any hardware register
write — the interface registers are untouched — but the buffers are NOT
released: `checkBuf` ignores the failure, the request slot and the
return slot stay referenced by the driver interface state, and neither
free ring regains a descriptor. -/
theorem C4_bad_addr_rejected_before_hw_write
    (fr : List RingEntry) (req sz : Nat) (restU : List RingEntry)
    (cret csz : Nat) (restF : List RingEntry) (ru : List RingEntry) (db : Nat)
    (ct : Option Nat) (len0 rem0 : Nat) (dd nf : Bool) (ifc : I2cIf) (m : Mem)
    (ns : List Nat) (ld : Nat)
    (hsz1 : REQ_BUF_DAT_OFFSET < sz) (hsz2 : sz ≤ I2C_BUF_SZ)
    (haddr : mread m (req + REQ_BUF_ADDR) > 0x7F)
    (hd1 : req + REQ_BUF_ADDR ≠ cret + RET_BUF_CLIENT)
    (hd2 : req + REQ_BUF_ADDR ≠ cret + RET_BUF_ADDR) :
    (checkBuf ⟨⟨none, ct, len0, rem0, dd, nf⟩, ifc,
      ⟨⟨⟨fr⟩, ⟨(req, sz) :: restU⟩⟩, ⟨⟨(cret, csz) :: restF⟩, ⟨ru⟩⟩, db⟩,
      m, ns, ld⟩).map
      (fun s' => (s'.iface, s'.ifState.current_req, s'.ifState.current_ret,
        s'.ctx.reqRing.free.entries, s'.ctx.retRing.free.entries))
    = some (ifc, some req, some cret, fr, restF) := by
  simp only [checkBuf]
  simp only [reqBufEmpty, ring_empty, List.isEmpty_cons, if_true]
  simp only [Option.isSome_none, Bool.false_eq_true, if_false]
  simp only [popReqBuf, getRetBuf, dequeue]
  rw [if_neg (by omega)]
  simp only [i2cLoadTokens]
  rw [mread_mwrite_other _ _ _ _ hd2, mread_mwrite_other _ _ _ _ hd1,
    if_pos haddr]
  rfl

/-- C4 counterexample: the claim as stated says both buffers are
released back to their free rings.  Concretely rejecting a request with
address byte `0x80`: after `checkBuf` both free rings are empty —
nothing was released — while both slots remain held by the interface
state. -/
theorem C4_counterexample :
    (checkBuf ⟨⟨none, none, 0, 0, false, false⟩, wIfc,
      ⟨⟨⟨[]⟩, ⟨[(1000, 5)]⟩⟩, ⟨⟨[(2000, I2C_BUF_SZ)]⟩, ⟨[]⟩⟩, 0⟩,
      mwrite wMem (1000 + REQ_BUF_ADDR) 0x80, [], 0⟩).map
      (fun s' => (s'.ctx.reqRing.free.entries, s'.ctx.retRing.free.entries,
        s'.ifState.current_req, s'.ifState.current_ret))
    = some ([], [], some 1000, some 2000) := by
  decide

theorem C4_witness :
    (REQ_BUF_DAT_OFFSET < 5 ∧ (5 : Nat) ≤ I2C_BUF_SZ ∧
      mread (mwrite wMem (1000 + REQ_BUF_ADDR) 0x80) (1000 + REQ_BUF_ADDR) > 0x7F) ∧
    (checkBuf ⟨⟨none, none, 0, 0, false, false⟩, wIfc,
      ⟨⟨⟨[]⟩, ⟨[(1000, 5)]⟩⟩, ⟨⟨[(2000, I2C_BUF_SZ)]⟩, ⟨[]⟩⟩, 0⟩,
      mwrite wMem (1000 + REQ_BUF_ADDR) 0x80, [], 0⟩).map
      (fun s' => (s'.iface, s'.ifState.current_req, s'.ifState.current_ret,
        s'.ctx.reqRing.free.entries, s'.ctx.retRing.free.entries))
    = some (wIfc, some 1000, some 2000, [], []) :=
  ⟨⟨by decide, by decide, by decide⟩,
    C4_bad_addr_rejected_before_hw_write [] 1000 5 [] 2000 I2C_BUF_SZ [] [] 0
      none 0 0 false false wIfc (mwrite wMem (1000 + REQ_BUF_ADDR) 0x80) [] 0
      (by decide) (by decide) (by decide) (by decide) (by decide)⟩

/-! ## C8 — deferred notification handling -/

/-- C8: the claim is right about recording and re-checking the deferred
flag (first conjunct: a notification during an in-flight transaction
only sets `notified`, leaving the pending request in the used ring and
starting no load), but the end-of-IRQ path is broken: after a completed
transaction clears the interface state, a set `notified` flag makes the
handler re-invoke `i2cLoadTokens` on the cleared state — whose
current-request pointer is NULL — instead of dequeuing the pending
request from the request-used ring (second conjunct: the handler
dereferences the null pointer, modelled as `none`).  This contradicts
the code's own comment ("immediately start working on the next one") at
i2c-odroid-c4.c:649. -/
theorem C8_deferred_flag_reload_bug :
    (checkBuf ⟨⟨some 100, some 200, 3, 0, false, false⟩, wIfc,
      ⟨⟨⟨[]⟩, ⟨[(300, 23)]⟩⟩, ⟨⟨[]⟩, ⟨[]⟩⟩, 0⟩, wMem, [], 0⟩).map
      (fun s' => (s'.ifState.notified, s'.ctx.reqRing.used.entries, s'.loads))
    = some (true, [(300, 23)], 0) ∧
    (i2cirq ⟨⟨some 100, some 200, 3, 0, false, true⟩, wIfc,
      ⟨⟨⟨[]⟩, ⟨[(300, 23)]⟩⟩, ⟨⟨[]⟩, ⟨[]⟩⟩, 0⟩, wMem, [], 0⟩ false 0 0 0).isNone
    = true := by
  constructor
  · decide
  · decide

/-! ## C9 — write-path round trip -/

/-- Client payload for a 2-byte write: bytes `0xAA 0xBB` at 3000. -/
def c9mem : Mem := mwrite (mwrite wMem 3000 0xAA) 3001 0xBB

/-- Client context with one free request slot at 1000. -/
def c9ctx : I2cCtx := ⟨⟨⟨[(1000, I2C_BUF_SZ)]⟩, ⟨[]⟩⟩, ⟨⟨[]⟩, ⟨[]⟩⟩, 0⟩

/-- The token stream the spec intends for that write:
`ADDRW, DATA, 0xAA, DATA, 0xBB` at offsets 2.. of slot 1000. -/
def c9smem : Mem :=
  ([(1002, I2C_TK_ADDRW), (1003, I2C_TK_DAT), (1004, 0xAA),
    (1005, I2C_TK_DAT), (1006, 0xBB)] : List (Nat × Nat)).foldl
    (fun (m : Mem) (p : Nat × Nat) => mwrite m p.1 p.2) wMem

/-- C9: the claim fails on the encoder.  For the 2-byte write
`[0xAA, 0xBB]`, `clientAllocReqBuf` emits only one DATA/byte pair — its
loop bound is `i < size + REQ_BUF_DAT_OFFSET` instead of the token-stream
length `2*size + REQ_BUF_DAT_OFFSET` — so byte `0xBB` is never written
(offset 1005 stays 0), and the slot is enqueued with length `size` = 2
(≤ `REQ_BUF_DAT_OFFSET`, which the driver rejects as an invalid size).
The second conjunct shows the driver side does satisfy the claim on the
intended stream: loading `ADDRW, DATA 0xAA, DATA 0xBB` programs exactly
two DATA tokens (`tk_list0 = 0x442`) with the write-data register
holding the bytes in order (`0xBBAA`), so the encoder's loop bound is
the slip (spec §9 flags exactly this write-path size accounting). -/
theorem C9_write_encoding_drops_bytes :
    ((clientAllocReqBuf c9ctx c9mem 2 3000 0x50 I2C_MODE_WRITE).2 = some 1000 ∧
     (clientAllocReqBuf c9ctx c9mem 2 3000 0x50
        I2C_MODE_WRITE).1.1.reqRing.used.entries = [(1000, 2)] ∧
     mread (clientAllocReqBuf c9ctx c9mem 2 3000 0x50 I2C_MODE_WRITE).1.2 1002
       = I2C_TK_ADDRW ∧
     mread (clientAllocReqBuf c9ctx c9mem 2 3000 0x50 I2C_MODE_WRITE).1.2 1003
       = I2C_TK_DAT ∧
     mread (clientAllocReqBuf c9ctx c9mem 2 3000 0x50 I2C_MODE_WRITE).1.2 1004
       = 0xAA ∧
     mread (clientAllocReqBuf c9ctx c9mem 2 3000 0x50 I2C_MODE_WRITE).1.2 1005
       = 0) ∧
    (i2cLoadTokens ⟨⟨some 1000, some 2000, 5, 5, false, false⟩, wIfc, wDrvCtx,
        c9smem, [], 0⟩).map
      (fun q => (q.1.iface.tk_list0, q.1.iface.tk_list1, q.1.iface.wdata0,
        q.1.ifState.remaining))
    = some (0x442, 0, 0xBBAA, 0) := by
  refine ⟨⟨?_, ?_, ?_, ?_, ?_, ?_⟩, ?_⟩ <;> decide

/-! ## C5 — per-client admission and security filtering -/

/-- C5: for a notification from a valid client channel whose context
holds a pending request: (1) if the security list does not map the
request's address byte to this client, the request is silently dropped —
the client's slot goes back to its free ring and the driver context,
memory and notification trace are untouched; (2) if the address is owned
and the driver-side pool admits the request, the payload is re-wrapped
into the driver context tagged with the channel id in the CLIENT_ID
byte and the driver is notified; (3) if the address is owned but the
driver-side request pool is empty, the request is dropped and the
client's slot is released, the driver context untouched. -/
theorem C5_client_request_admission
    (sl : Nat → Int) (cs : Nat → I2cCtx) (dctx : I2cCtx) (m : Mem) (ns : List Nat)
    (channel : Nat) (cfr : RingBuf) (req sz : Nat) (restU : List RingEntry)
    (cretH : RingHandle) (cdb : Nat)
    (hch : channel < NUM_CLIENTS)
    (hctx : cs channel = ⟨⟨cfr, ⟨(req, sz) :: restU⟩⟩, cretH, cdb⟩)
    (hcap : cfr.entries.length < RING_SIZE) :
    (sl (mread m (req + REQ_BUF_ADDR)) ≠ (channel : Int) →
      clientNotify ⟨sl, cs, dctx, m, ns⟩ channel
      = ⟨sl, fupdate cs channel
          ⟨⟨⟨cfr.entries ++ [(req, I2C_BUF_SZ)]⟩, ⟨restU⟩⟩, cretH, cdb⟩,
          dctx, m, ns⟩) ∧
    (∀ (dbuf dsz : Nat) (dfr du : List RingEntry) (dretH : RingHandle) (ddb : Nat),
      sl (mread m (req + REQ_BUF_ADDR)) = (channel : Int) →
      dctx = ⟨⟨⟨(dbuf, dsz) :: dfr⟩, ⟨du⟩⟩, dretH, ddb⟩ →
      sz ≤ I2C_BUF_SZ - REQ_BUF_DAT_OFFSET →
      du.length < RING_SIZE →
      (serverNotified ⟨sl, cs, dctx, m, ns⟩ channel).map
        (fun s' => (s'.driver_context.reqRing.used.entries,
          mread s'.mem (dbuf + REQ_BUF_CLIENT), s'.notifs))
      = some (du ++ [(dbuf, sz + REQ_BUF_DAT_OFFSET)], channel % 256,
          ns ++ [DRIVER_NOTIFY_ID])) ∧
    (sl (mread m (req + REQ_BUF_ADDR)) = (channel : Int) →
      dctx.reqRing.free.entries = [] →
      clientNotify ⟨sl, cs, dctx, m, ns⟩ channel
      = ⟨sl, fupdate cs channel
          ⟨⟨⟨cfr.entries ++ [(req, I2C_BUF_SZ)]⟩, ⟨restU⟩⟩, cretH, cdb⟩,
          dctx, m, ns⟩) := by
  have h0 : channel = 0 := by
    simp only [NUM_CLIENTS] at hch; omega
  subst h0
  refine ⟨?_, ?_, ?_⟩
  · intro hsec
    simp only [clientNotify]
    rw [if_neg (by decide), hctx]
    simp only [reqBufEmpty, ring_empty, List.isEmpty_cons, Bool.false_eq_true,
      if_false, popReqBuf, dequeue]
    rw [if_pos hsec]
    simp only [releaseReqBuf, enqueue]
    rw [if_neg (by omega)]
  · intro dbuf dsz dfr du dretH ddb hsec hdctx hsz hdu
    subst hdctx
    have hcn : clientNotify ⟨sl, cs, ⟨⟨⟨(dbuf, dsz) :: dfr⟩, ⟨du⟩⟩, dretH, ddb⟩, m, ns⟩ 0
        = ⟨sl, fupdate cs 0 ⟨⟨cfr, ⟨restU⟩⟩, cretH, cdb⟩,
            ⟨⟨⟨dfr⟩, ⟨du ++ [(dbuf, sz + REQ_BUF_DAT_OFFSET)]⟩⟩, dretH, ddb⟩,
            memcpyMem (mwrite (mwrite m (dbuf + REQ_BUF_CLIENT) 0)
              (dbuf + REQ_BUF_ADDR) (mread m (req + REQ_BUF_ADDR)))
              (dbuf + REQ_BUF_DAT_OFFSET) req sz,
            ns⟩ := by
      simp only [clientNotify]
      rw [if_neg (by decide), hctx]
      simp only [reqBufEmpty, ring_empty, List.isEmpty_cons, Bool.false_eq_true,
        if_false, popReqBuf, dequeue]
      rw [if_neg (not_not_intro hsec)]
      simp only [serverAllocReqBuf]
      rw [if_neg (by omega)]
      simp only [dequeue, enqueue]
      rw [if_neg (by omega)]
      rfl
    have hne : reqBufEmpty
        (⟨⟨⟨dfr⟩, ⟨du ++ [(dbuf, sz + REQ_BUF_DAT_OFFSET)]⟩⟩, dretH, ddb⟩ : I2cCtx)
        = false := by
      cases du <;> simp [reqBufEmpty, ring_empty]
    simp only [serverNotified]
    rw [if_neg (by decide)]
    rw [hcn]
    simp only [hne, Bool.false_eq_true, if_false]
    simp only [Option.map_some', Option.some_inj, Prod.mk.injEq]
    refine ⟨trivial, ?_, trivial⟩
    rw [mread]
    rw [memcpyMem_below _ _ _ _ _
        (by simp only [REQ_BUF_DAT_OFFSET, REQ_BUF_CLIENT]; omega),
      mwrite_other _ _ _ _
        (by simp only [REQ_BUF_ADDR, REQ_BUF_CLIENT]; omega),
      mwrite_self]
  · intro hsec hempty
    rcases dctx with ⟨⟨⟨dfre⟩, dus⟩, dretH2, ddb2⟩
    simp only at hempty
    subst hempty
    simp only [clientNotify]
    rw [if_neg (by decide), hctx]
    simp only [reqBufEmpty, ring_empty, List.isEmpty_cons, Bool.false_eq_true,
      if_false, popReqBuf, dequeue]
    rw [if_neg (not_not_intro hsec)]
    simp only [serverAllocReqBuf]
    by_cases hsz2 : sz > I2C_BUF_SZ - REQ_BUF_DAT_OFFSET
    · rw [if_pos hsz2]
      simp only [releaseReqBuf, enqueue]
      rw [if_neg (by omega)]
    · rw [if_neg hsz2]
      simp only [dequeue]
      simp only [releaseReqBuf, enqueue]
      rw [if_neg (by omega)]

theorem C5_witness :
    (0 < NUM_CLIENTS ∧
      (fun _ => (-1 : Int)) (mread wMem (5000 + REQ_BUF_ADDR)) ≠ ((0 : Nat) : Int)) ∧
    clientNotify ⟨(fun _ => (-1 : Int)),
      (fun _ => (⟨⟨⟨[]⟩, ⟨[(5000, 7)]⟩⟩, ⟨⟨[]⟩, ⟨[]⟩⟩, 0⟩ : I2cCtx)),
      wDrvCtx, wMem, []⟩ 0
    = ⟨(fun _ => (-1 : Int)),
        fupdate (fun _ => ⟨⟨⟨[]⟩, ⟨[(5000, 7)]⟩⟩, ⟨⟨[]⟩, ⟨[]⟩⟩, 0⟩) 0
          ⟨⟨⟨[(5000, I2C_BUF_SZ)]⟩, ⟨[]⟩⟩, ⟨⟨[]⟩, ⟨[]⟩⟩, 0⟩,
        wDrvCtx, wMem, []⟩ :=
  ⟨⟨by decide, by decide⟩,
    (C5_client_request_admission (fun _ => (-1 : Int))
      (fun _ => ⟨⟨⟨[]⟩, ⟨[(5000, 7)]⟩⟩, ⟨⟨[]⟩, ⟨[]⟩⟩, 0⟩) wDrvCtx wMem [] 0
      ⟨[]⟩ 5000 7 [] ⟨⟨[]⟩, ⟨[]⟩⟩ 0 (by decide) rfl (by decide)).1 (by decide)⟩

/-! ## C6 — routing of completed returns to clients -/

/-- Driver-side return buffer at 500: success status for client 0,
address 0x50, payload byte `0xAB`. -/
def c6mem : Mem :=
  ([(500 + RET_BUF_CLIENT, 0), (500 + RET_BUF_ADDR, 0x50),
    (500 + RET_BUF_ERR, I2C_ERR_OK), (500 + RET_BUF_ERR_TK, 0),
    (500 + RET_BUF_DAT_OFFSET, 0xAB)] : List (Nat × Nat)).foldl
    (fun (m : Mem) (p : Nat × Nat) => mwrite m p.1 p.2) wMem

/-- Client 0's context: one free return slot at 800 (all-zero bytes). -/
def c6cs : Nat → I2cCtx := fun _ => ⟨⟨⟨[]⟩, ⟨[]⟩⟩, ⟨⟨[(800, I2C_BUF_SZ)]⟩, ⟨[]⟩⟩, 0⟩

/-- Driver context: the completed return buffer waits in return-used. -/
def c6drv : I2cCtx := ⟨⟨⟨[]⟩, ⟨[]⟩⟩, ⟨⟨[]⟩, ⟨[(500, 8)]⟩⟩, 0⟩

/-- Server about to handle the driver notification (success case). -/
def c6s : ServerState := ⟨fun _ => -1, c6cs, c6drv, c6mem, []⟩

/-- Same, but the return reports a NACK with error token 5. -/
def c6sErr : ServerState :=
  ⟨fun _ => -1, c6cs, c6drv,
    mwrite (mwrite c6mem (500 + RET_BUF_ERR) I2C_ERR_NACK)
      (500 + RET_BUF_ERR_TK) 5, []⟩

/-- C6: the claim is right and the code is wrong.  Success case (first
conjunct): `driverNotify` allocates a fresh slot (800) from the client's
return-free ring and notifies the client, but its `memcpy(ret, ret, sz)`
copies the client buffer onto itself — the payload byte `0xAB` never
reaches offset 800+4 (it stays 0) — and the filled slot is never pushed
to the client's return-used ring; only the driver-slot release matches
the claim.  This contradicts the source's own comments ("Move data from
driver ret buf to client ret buf", "Copy to client buffer",
i2c.c:134-138).  Error case (second conjunct): nothing is surfaced to
the client — the client context is untouched, the error/error-token
bytes are not copied anywhere (offset 800+2 stays 0), no client
notification is sent — the driver's slot is released regardless, which
is the only part of the claim the code implements. -/
theorem C6_driver_return_path_bug :
    ((driverNotify c6s).map
      (fun s' => (mread s'.mem (800 + RET_BUF_DAT_OFFSET),
        (s'.contexts 0).retRing.used.entries,
        (s'.contexts 0).retRing.free.entries,
        s'.driver_context.retRing.free.entries,
        s'.notifs))
    = some (0, [], [], [(500, I2C_BUF_SZ)], [0])) ∧
    ((driverNotify c6sErr).map
      (fun s' => ((s'.contexts 0), mread s'.mem (800 + RET_BUF_ERR),
        s'.driver_context.retRing.free.entries, s'.notifs))
    = some (⟨⟨⟨[]⟩, ⟨[]⟩⟩, ⟨⟨[(800, I2C_BUF_SZ)]⟩, ⟨[]⟩⟩, 0⟩, 0,
        [(500, I2C_BUF_SZ)], [])) := by
  constructor
  · decide
  · decide

/-! ## C1 — exclusive slot ownership in the transport layer -/

/-- Slot addresses recorded in a ring. -/
def ringAddrs (r : RingBuf) : List Nat := r.entries.map Prod.fst

/-- Ownership world: a transport context and its byte store, plus ghost
lists of the slots currently held in flight by a caller of each class
(popped or fetched, not yet released/pushed). -/
structure TWorld where
  ctx : I2cCtx
  mem : Mem
  inflightReq : List Nat
  inflightRet : List Nat

/-- The transport operations named by the claim, with their arguments. -/
inductive TOp where
  | initOp
  | serverAlloc (size data client addr : Nat)
  | clientAlloc (size data addr mode : Nat)
  | getRet
  | pushRet (buf size : Nat)
  | popReq
  | popRet
  | releaseReq (buf : Nat)
  | releaseRet (buf : Nat)

/-- Apply one transport operation (through the real transport functions),
maintaining the ghost in-flight lists: pops add the returned slot, a
successful push/release removes it. -/
def stepOp (w : TWorld) : TOp → TWorld
  | .initOp => ⟨i2cTransportInit w.ctx true, w.mem, [], []⟩
  | .serverAlloc size data client addr =>
    let r := serverAllocReqBuf w.ctx w.mem size data client addr
    ⟨r.1.1, r.1.2, w.inflightReq, w.inflightRet⟩
  | .clientAlloc size data addr mode =>
    let r := clientAllocReqBuf w.ctx w.mem size data addr mode
    ⟨r.1.1, r.1.2, w.inflightReq, w.inflightRet⟩
  | .getRet =>
    match getRetBuf w.ctx with
    | (ctx1, some b) => ⟨ctx1, w.mem, w.inflightReq, b :: w.inflightRet⟩
    | (ctx1, none) => ⟨ctx1, w.mem, w.inflightReq, w.inflightRet⟩
  | .pushRet buf size =>
    let r := pushRetBuf w.ctx buf size
    ⟨r.1, w.mem, w.inflightReq,
      if r.1.retRing.used.entries.length = w.ctx.retRing.used.entries.length + 1
      then w.inflightRet.erase buf else w.inflightRet⟩
  | .popReq =>
    match popReqBuf w.ctx with
    | (ctx1, some (b, _)) => ⟨ctx1, w.mem, b :: w.inflightReq, w.inflightRet⟩
    | (ctx1, none) => ⟨ctx1, w.mem, w.inflightReq, w.inflightRet⟩
  | .popRet =>
    match popRetBuf w.ctx with
    | (ctx1, some (b, _)) => ⟨ctx1, w.mem, w.inflightReq, b :: w.inflightRet⟩
    | (ctx1, none) => ⟨ctx1, w.mem, w.inflightReq, w.inflightRet⟩
  | .releaseReq buf =>
    match releaseReqBuf w.ctx buf with
    | (ctx1, rc) =>
      ⟨ctx1, w.mem,
        if rc = 0 then w.inflightReq.erase buf else w.inflightReq, w.inflightRet⟩
  | .releaseRet buf =>
    match releaseRetBuf w.ctx buf with
    | (ctx1, rc) =>
      ⟨ctx1, w.mem, w.inflightReq,
        if rc = 0 then w.inflightRet.erase buf else w.inflightRet⟩

/-- Run a sequence of transport operations. -/
def runOps (w : TWorld) (ops : List TOp) : TWorld := ops.foldl stepOp w

/-- The ownership discipline of §4.1: `release` (and the driver's push)
may only target a slot its caller currently holds in flight, and the
server's double init happens before any slot is handed out. -/
def okOp (w : TWorld) : TOp → Prop
  | .initOp => w.inflightReq = [] ∧ w.inflightRet = []
  | .pushRet buf _ => buf ∈ w.inflightRet
  | .releaseReq buf => buf ∈ w.inflightReq
  | .releaseRet buf => buf ∈ w.inflightRet
  | _ => True

/-- A sequence of transport operations respecting the discipline. -/
def Disciplined : TWorld → List TOp → Prop
  | _, [] => True
  | w, op :: rest => okOp w op ∧ Disciplined (stepOp w op) rest

/-- All request-class slot addresses of the pool. -/
def reqPool (db : Nat) : List Nat :=
  (List.range I2C_BUF_COUNT).map fun i => db + i * I2C_BUF_SZ

/-- All return-class slot addresses of the pool. -/
def retPool (db : Nat) : List Nat :=
  (List.range I2C_BUF_COUNT).map fun i => db + I2C_BUF_SZ * (i + I2C_BUF_COUNT)

/-- Where every request-class slot address currently is: free ring, used
ring, or in flight (as a multiset, so duplicates are visible). -/
def reqOcc (w : TWorld) : Multiset Nat :=
  (ringAddrs w.ctx.reqRing.free : Multiset Nat)
    + (ringAddrs w.ctx.reqRing.used : Multiset Nat)
    + (w.inflightReq : Multiset Nat)

/-- Return-class occupancy. -/
def retOcc (w : TWorld) : Multiset Nat :=
  (ringAddrs w.ctx.retRing.free : Multiset Nat)
    + (ringAddrs w.ctx.retRing.used : Multiset Nat)
    + (w.inflightRet : Multiset Nat)

/-- The ownership invariant: each class's occupancy is exactly the pool —
every slot pointer appears exactly once across {free, used, in-flight}. -/
def TInv (w : TWorld) : Prop :=
  reqOcc w = (reqPool w.ctx.driver_bufs : Multiset Nat) ∧
  retOcc w = (retPool w.ctx.driver_bufs : Multiset Nat)

/-- Coercion of a mapped cons of ring entries into a multiset of addresses. -/
lemma coe_map_cons (b s : Nat) (l : List RingEntry) :
    ((((b, s) :: l).map Prod.fst : List Nat) : Multiset Nat)
      = {b} + ↑(l.map Prod.fst) := by
  simp [Multiset.singleton_add]

/-- Multiset coercion distributes over list append. -/
lemma coe_append_nat (l1 l2 : List Nat) :
    ((l1 ++ l2 : List Nat) : Multiset Nat) = ↑l1 + ↑l2 := rfl

/-- Coercion of a mapped snoc of ring entries into a multiset of addresses. -/
lemma coe_map_append (l : List RingEntry) (b s : Nat) :
    (((l ++ [(b, s)]).map Prod.fst : List Nat) : Multiset Nat)
      = ↑(l.map Prod.fst) + {b} := by
  rw [List.map_append, coe_append_nat]
  rfl

/-- Multiset coercion of a cons as a singleton sum. -/
lemma coe_cons_nat (b : Nat) (l : List Nat) :
    ((b :: l : List Nat) : Multiset Nat) = {b} + ↑l := by
  simp [Multiset.singleton_add]

/-- A member can be split off a list's multiset via `erase`. -/
lemma coe_erase_of_mem (b : Nat) (l : List Nat) (h : b ∈ l) :
    (l : Multiset Nat) = {b} + ↑(l.erase b) := by
  have h2 : b ::ₘ (↑(l.erase b) : Multiset Nat) = ↑l := by
    rw [← Multiset.coe_erase]
    exact Multiset.cons_erase (by simpa using h)
  rw [Multiset.singleton_add, h2]

/-- Enqueue into a non-full ring appends the descriptor. -/
lemma enqueueD_lt (l : List RingEntry) (a s : Nat) (h : l.length < RING_SIZE) :
    enqueueD ⟨l⟩ a s = ⟨l ++ [(a, s)]⟩ := by
  simp only [enqueueD, enqueue]
  rw [if_neg (Nat.not_le.mpr h)]

/-- Characterisation of the `i2cTransportInit` slot loop: as long as both
free rings have room for all `n` slots, the fold appends exactly the `n`
request-slot and return-slot descriptors. -/
lemma initSlot_fold (db : Nat) (ur vr : RingBuf) :
    ∀ (n : Nat) (fl gl : List RingEntry),
      fl.length + n ≤ RING_SIZE → gl.length + n ≤ RING_SIZE →
      (List.range n).foldl initSlot ⟨⟨⟨fl⟩, ur⟩, ⟨⟨gl⟩, vr⟩, db⟩ =
        ⟨⟨⟨fl ++ (List.range n).map (fun i => (db + i * I2C_BUF_SZ, I2C_BUF_SZ))⟩, ur⟩,
         ⟨⟨gl ++ (List.range n).map
             (fun i => (db + I2C_BUF_SZ * (i + I2C_BUF_COUNT), I2C_BUF_SZ))⟩, vr⟩, db⟩ := by
  intro n
  induction n with
  | zero => intro fl gl _ _; simp
  | succ k ih =>
    intro fl gl hf hg
    rw [List.range_succ, List.foldl_append,
      ih fl gl (by omega) (by omega)]
    show initSlot _ k = _
    rw [initSlot]
    simp only
    rw [enqueueD_lt _ _ _ (by simp; omega), enqueueD_lt _ _ _ (by simp; omega)]
    simp [List.range_succ]

/-- `i2cTransportInit` with `buffer_init` produces exactly the full free
rings (one descriptor per pool slot) and empty used rings. -/
lemma i2cTransportInit_true (ctx : I2cCtx) :
    i2cTransportInit ctx true =
      ⟨⟨⟨(List.range I2C_BUF_COUNT).map
           (fun i => (ctx.driver_bufs + i * I2C_BUF_SZ, I2C_BUF_SZ))⟩, ⟨[]⟩⟩,
       ⟨⟨(List.range I2C_BUF_COUNT).map
           (fun i => (ctx.driver_bufs + I2C_BUF_SZ * (i + I2C_BUF_COUNT), I2C_BUF_SZ))⟩, ⟨[]⟩⟩,
       ctx.driver_bufs⟩ := by
  obtain ⟨rq, rt, db⟩ := ctx
  show (List.range I2C_BUF_COUNT).foldl initSlot
      ⟨⟨⟨[]⟩, ⟨[]⟩⟩, ⟨⟨[]⟩, ⟨[]⟩⟩, db⟩ = _
  rw [initSlot_fold db ⟨[]⟩ ⟨[]⟩ I2C_BUF_COUNT [] [] (by decide) (by decide)]
  simp

/-- A freshly initialised transport world satisfies the ownership
invariant. -/
lemma TInv_init (ctx : I2cCtx) (m : Mem) :
    TInv ⟨i2cTransportInit ctx true, m, [], []⟩ := by
  rw [TInv, reqOcc, retOcc, i2cTransportInit_true]
  constructor <;>
    simp [ringAddrs, reqPool, retPool, List.map_map, Function.comp_def]

/-- The invariant pins the total request-class population at `RING_SIZE`. -/
lemma occ_card_req (w : TWorld) (h : TInv w) :
    w.ctx.reqRing.free.entries.length + w.ctx.reqRing.used.entries.length
      + w.inflightReq.length = RING_SIZE := by
  have hc := congrArg Multiset.card h.1
  rw [reqOcc] at hc
  simp only [Multiset.card_add] at hc
  simp only [Multiset.coe_card] at hc
  simp only [ringAddrs, List.length_map, reqPool, List.length_range] at hc
  simp only [RING_SIZE]
  simp only [I2C_BUF_COUNT] at hc
  omega

/-- The invariant pins the total return-class population at `RING_SIZE`. -/
lemma occ_card_ret (w : TWorld) (h : TInv w) :
    w.ctx.retRing.free.entries.length + w.ctx.retRing.used.entries.length
      + w.inflightRet.length = RING_SIZE := by
  have hc := congrArg Multiset.card h.2
  rw [retOcc] at hc
  simp only [Multiset.card_add] at hc
  simp only [Multiset.coe_card] at hc
  simp only [ringAddrs, List.length_map, retPool, List.length_range] at hc
  simp only [RING_SIZE]
  simp only [I2C_BUF_COUNT] at hc
  omega

/-- Preservation: every disciplined transport operation keeps the
slot-ownership invariant. -/
lemma TInv_step :
    ∀ (w : TWorld) (op : TOp), okOp w op → TInv w → TInv (stepOp w op)
  | ⟨⟨⟨⟨fq⟩, ⟨uq⟩⟩, ⟨⟨fr⟩, ⟨ur⟩⟩, db⟩, m, ir, rt⟩, op, hok, hinv => by
    have hcq : fq.length + uq.length + ir.length = RING_SIZE := occ_card_req _ hinv
    have hcr : fr.length + ur.length + rt.length = RING_SIZE := occ_card_ret _ hinv
    have h1 : (↑(fq.map Prod.fst) + ↑(uq.map Prod.fst) + ↑ir : Multiset Nat)
        = ↑(reqPool db) := hinv.1
    have h2 : (↑(fr.map Prod.fst) + ↑(ur.map Prod.fst) + ↑rt : Multiset Nat)
        = ↑(retPool db) := hinv.2
    cases op with
    | initOp => exact TInv_init _ _
    | serverAlloc size data client addr =>
      show TInv ⟨(serverAllocReqBuf ⟨⟨⟨fq⟩, ⟨uq⟩⟩, ⟨⟨fr⟩, ⟨ur⟩⟩, db⟩ m size data client addr).1.1,
        (serverAllocReqBuf ⟨⟨⟨fq⟩, ⟨uq⟩⟩, ⟨⟨fr⟩, ⟨ur⟩⟩, db⟩ m size data client addr).1.2, ir, rt⟩
      by_cases hsz : size > I2C_BUF_SZ - REQ_BUF_DAT_OFFSET
      · have hctx : (serverAllocReqBuf ⟨⟨⟨fq⟩, ⟨uq⟩⟩, ⟨⟨fr⟩, ⟨ur⟩⟩, db⟩ m size data client addr).1.1
            = ⟨⟨⟨fq⟩, ⟨uq⟩⟩, ⟨⟨fr⟩, ⟨ur⟩⟩, db⟩ := by
          simp [serverAllocReqBuf, hsz]
        rw [hctx]
        exact ⟨h1, h2⟩
      · cases fq with
        | nil =>
          have hctx : (serverAllocReqBuf ⟨⟨⟨[]⟩, ⟨uq⟩⟩, ⟨⟨fr⟩, ⟨ur⟩⟩, db⟩ m size data client addr).1.1
              = ⟨⟨⟨[]⟩, ⟨uq⟩⟩, ⟨⟨fr⟩, ⟨ur⟩⟩, db⟩ := by
            simp [serverAllocReqBuf, hsz, dequeue]
          rw [hctx]
          exact ⟨h1, h2⟩
        | cons e restq =>
          obtain ⟨buf, s⟩ := e
          have hu : ¬ uq.length ≥ RING_SIZE := by
            simp only [List.length_cons] at hcq; omega
          have hctx : (serverAllocReqBuf ⟨⟨⟨(buf, s) :: restq⟩, ⟨uq⟩⟩, ⟨⟨fr⟩, ⟨ur⟩⟩, db⟩
                m size data client addr).1.1
              = ⟨⟨⟨restq⟩, ⟨uq ++ [(buf, size + REQ_BUF_DAT_OFFSET)]⟩⟩, ⟨⟨fr⟩, ⟨ur⟩⟩, db⟩ := by
            simp [serverAllocReqBuf, hsz, dequeue, enqueue, hu]
          rw [hctx]
          refine ⟨?_, h2⟩
          show (↑(restq.map Prod.fst) + ↑((uq ++ [(buf, size + REQ_BUF_DAT_OFFSET)]).map Prod.fst)
              + ↑ir : Multiset Nat) = ↑(reqPool db)
          rw [coe_map_append]
          rw [coe_map_cons] at h1
          rw [← h1]
          abel
    | clientAlloc size data addr mode =>
      show TInv ⟨(clientAllocReqBuf ⟨⟨⟨fq⟩, ⟨uq⟩⟩, ⟨⟨fr⟩, ⟨ur⟩⟩, db⟩ m size data addr mode).1.1,
        (clientAllocReqBuf ⟨⟨⟨fq⟩, ⟨uq⟩⟩, ⟨⟨fr⟩, ⟨ur⟩⟩, db⟩ m size data addr mode).1.2, ir, rt⟩
      have hbody : ∀ (mem2 : Mem),
          TInv ⟨(clientAllocReqBuf.clientAllocReqBufBody ⟨⟨⟨fq⟩, ⟨uq⟩⟩, ⟨⟨fr⟩, ⟨ur⟩⟩, db⟩
              m size data addr mode).1.1, mem2, ir, rt⟩ := by
        intro mem2
        cases fq with
        | nil =>
          have hctx : (clientAllocReqBuf.clientAllocReqBufBody ⟨⟨⟨[]⟩, ⟨uq⟩⟩, ⟨⟨fr⟩, ⟨ur⟩⟩, db⟩
                m size data addr mode).1.1
              = ⟨⟨⟨[]⟩, ⟨uq⟩⟩, ⟨⟨fr⟩, ⟨ur⟩⟩, db⟩ := by
            simp [clientAllocReqBuf.clientAllocReqBufBody, dequeue]
          rw [hctx]
          exact ⟨h1, h2⟩
        | cons e restq =>
          obtain ⟨buf, s⟩ := e
          have hu : ¬ uq.length ≥ RING_SIZE := by
            simp only [List.length_cons] at hcq; omega
          have hctx : (clientAllocReqBuf.clientAllocReqBufBody
                ⟨⟨⟨(buf, s) :: restq⟩, ⟨uq⟩⟩, ⟨⟨fr⟩, ⟨ur⟩⟩, db⟩ m size data addr mode).1.1
              = ⟨⟨⟨restq⟩, ⟨uq ++ [(buf, size)]⟩⟩, ⟨⟨fr⟩, ⟨ur⟩⟩, db⟩ := by
            simp [clientAllocReqBuf.clientAllocReqBufBody, dequeue, enqueue, hu]
          rw [hctx]
          refine ⟨?_, h2⟩
          show (↑(restq.map Prod.fst) + ↑((uq ++ [(buf, size)]).map Prod.fst)
              + ↑ir : Multiset Nat) = ↑(reqPool db)
          rw [coe_map_append]
          rw [coe_map_cons] at h1
          rw [← h1]
          abel
      by_cases hw : mode = I2C_MODE_WRITE ∨ mode = I2C_MODE_WRITE_CONT
      · by_cases hszw : size > I2C_BUF_SZ / 2 - REQ_BUF_DAT_OFFSET
        · have hctx : (clientAllocReqBuf ⟨⟨⟨fq⟩, ⟨uq⟩⟩, ⟨⟨fr⟩, ⟨ur⟩⟩, db⟩ m size data addr mode).1.1
              = ⟨⟨⟨fq⟩, ⟨uq⟩⟩, ⟨⟨fr⟩, ⟨ur⟩⟩, db⟩ := by
            simp [clientAllocReqBuf, hw, hszw]
          rw [hctx]
          exact ⟨h1, h2⟩
        · have hctx : (clientAllocReqBuf ⟨⟨⟨fq⟩, ⟨uq⟩⟩, ⟨⟨fr⟩, ⟨ur⟩⟩, db⟩ m size data addr mode).1.1
              = (clientAllocReqBuf.clientAllocReqBufBody ⟨⟨⟨fq⟩, ⟨uq⟩⟩, ⟨⟨fr⟩, ⟨ur⟩⟩, db⟩
                  m size data addr mode).1.1 := by
            simp [clientAllocReqBuf, hw, hszw]
          rw [hctx]
          exact hbody _
      · by_cases hszr : size > I2C_BUF_SZ - REQ_BUF_DAT_OFFSET
        · have hctx : (clientAllocReqBuf ⟨⟨⟨fq⟩, ⟨uq⟩⟩, ⟨⟨fr⟩, ⟨ur⟩⟩, db⟩ m size data addr mode).1.1
              = ⟨⟨⟨fq⟩, ⟨uq⟩⟩, ⟨⟨fr⟩, ⟨ur⟩⟩, db⟩ := by
            simp [clientAllocReqBuf, hw, hszr]
          rw [hctx]
          exact ⟨h1, h2⟩
        · have hctx : (clientAllocReqBuf ⟨⟨⟨fq⟩, ⟨uq⟩⟩, ⟨⟨fr⟩, ⟨ur⟩⟩, db⟩ m size data addr mode).1.1
              = (clientAllocReqBuf.clientAllocReqBufBody ⟨⟨⟨fq⟩, ⟨uq⟩⟩, ⟨⟨fr⟩, ⟨ur⟩⟩, db⟩
                  m size data addr mode).1.1 := by
            simp [clientAllocReqBuf, hw, hszr]
          rw [hctx]
          exact hbody _
    | getRet =>
      cases fr with
      | nil =>
        have hstep : getRetBuf ⟨⟨⟨fq⟩, ⟨uq⟩⟩, ⟨⟨[]⟩, ⟨ur⟩⟩, db⟩
            = (⟨⟨⟨fq⟩, ⟨uq⟩⟩, ⟨⟨[]⟩, ⟨ur⟩⟩, db⟩, none) := by
          simp [getRetBuf, dequeue]
        show TInv (match getRetBuf ⟨⟨⟨fq⟩, ⟨uq⟩⟩, ⟨⟨[]⟩, ⟨ur⟩⟩, db⟩ with
          | (ctx1, some b) => ⟨ctx1, m, ir, b :: rt⟩
          | (ctx1, none) => ⟨ctx1, m, ir, rt⟩)
        rw [hstep]
        exact ⟨h1, h2⟩
      | cons e restr =>
        obtain ⟨buf, s⟩ := e
        have hstep : getRetBuf ⟨⟨⟨fq⟩, ⟨uq⟩⟩, ⟨⟨(buf, s) :: restr⟩, ⟨ur⟩⟩, db⟩
            = (⟨⟨⟨fq⟩, ⟨uq⟩⟩, ⟨⟨restr⟩, ⟨ur⟩⟩, db⟩, some buf) := by
          simp [getRetBuf, dequeue]
        show TInv (match getRetBuf ⟨⟨⟨fq⟩, ⟨uq⟩⟩, ⟨⟨(buf, s) :: restr⟩, ⟨ur⟩⟩, db⟩ with
          | (ctx1, some b) => ⟨ctx1, m, ir, b :: rt⟩
          | (ctx1, none) => ⟨ctx1, m, ir, rt⟩)
        rw [hstep]
        refine ⟨h1, ?_⟩
        show (↑(restr.map Prod.fst) + ↑(ur.map Prod.fst) + ↑(buf :: rt) : Multiset Nat)
            = ↑(retPool db)
        rw [coe_cons_nat]
        rw [coe_map_cons] at h2
        rw [← h2]
        abel
    | pushRet buf size =>
      have hmem : buf ∈ rt := hok
      by_cases hg : size > I2C_BUF_SZ ∨ buf = 0
      · have hstep : pushRetBuf ⟨⟨⟨fq⟩, ⟨uq⟩⟩, ⟨⟨fr⟩, ⟨ur⟩⟩, db⟩ buf size
            = (⟨⟨⟨fq⟩, ⟨uq⟩⟩, ⟨⟨fr⟩, ⟨ur⟩⟩, db⟩, 0) := by
          simp [pushRetBuf, hg]
        show TInv ⟨(pushRetBuf ⟨⟨⟨fq⟩, ⟨uq⟩⟩, ⟨⟨fr⟩, ⟨ur⟩⟩, db⟩ buf size).1, m, ir,
          if (pushRetBuf ⟨⟨⟨fq⟩, ⟨uq⟩⟩, ⟨⟨fr⟩, ⟨ur⟩⟩, db⟩ buf size).1.retRing.used.entries.length
              = ur.length + 1
          then rt.erase buf else rt⟩
        rw [hstep]
        rw [if_neg (by simp)]
        exact ⟨h1, h2⟩
      · by_cases hu2 : ur.length ≥ RING_SIZE
        · have hstep : pushRetBuf ⟨⟨⟨fq⟩, ⟨uq⟩⟩, ⟨⟨fr⟩, ⟨ur⟩⟩, db⟩ buf size
              = (⟨⟨⟨fq⟩, ⟨uq⟩⟩, ⟨⟨fr⟩, ⟨ur⟩⟩, db⟩, -1) := by
            simp [pushRetBuf, hg, enqueue, hu2]
          show TInv ⟨(pushRetBuf ⟨⟨⟨fq⟩, ⟨uq⟩⟩, ⟨⟨fr⟩, ⟨ur⟩⟩, db⟩ buf size).1, m, ir,
            if (pushRetBuf ⟨⟨⟨fq⟩, ⟨uq⟩⟩, ⟨⟨fr⟩, ⟨ur⟩⟩, db⟩ buf size).1.retRing.used.entries.length
                = ur.length + 1
            then rt.erase buf else rt⟩
          rw [hstep]
          rw [if_neg (by simp)]
          exact ⟨h1, h2⟩
        · have hstep : pushRetBuf ⟨⟨⟨fq⟩, ⟨uq⟩⟩, ⟨⟨fr⟩, ⟨ur⟩⟩, db⟩ buf size
              = (⟨⟨⟨fq⟩, ⟨uq⟩⟩, ⟨⟨fr⟩, ⟨ur ++ [(buf, I2C_BUF_SZ)]⟩⟩, db⟩, 0) := by
            simp [pushRetBuf, hg, enqueue, hu2]
          show TInv ⟨(pushRetBuf ⟨⟨⟨fq⟩, ⟨uq⟩⟩, ⟨⟨fr⟩, ⟨ur⟩⟩, db⟩ buf size).1, m, ir,
            if (pushRetBuf ⟨⟨⟨fq⟩, ⟨uq⟩⟩, ⟨⟨fr⟩, ⟨ur⟩⟩, db⟩ buf size).1.retRing.used.entries.length
                = ur.length + 1
            then rt.erase buf else rt⟩
          rw [hstep]
          rw [if_pos (by simp)]
          refine ⟨h1, ?_⟩
          show (↑(fr.map Prod.fst) + ↑((ur ++ [(buf, I2C_BUF_SZ)]).map Prod.fst)
              + ↑(rt.erase buf) : Multiset Nat) = ↑(retPool db)
          rw [coe_map_append]
          rw [coe_erase_of_mem buf rt hmem] at h2
          rw [← h2]
          abel
    | popReq =>
      cases uq with
      | nil =>
        have hstep : popReqBuf ⟨⟨⟨fq⟩, ⟨[]⟩⟩, ⟨⟨fr⟩, ⟨ur⟩⟩, db⟩
            = (⟨⟨⟨fq⟩, ⟨[]⟩⟩, ⟨⟨fr⟩, ⟨ur⟩⟩, db⟩, none) := by
          simp [popReqBuf, dequeue]
        show TInv (match popReqBuf ⟨⟨⟨fq⟩, ⟨[]⟩⟩, ⟨⟨fr⟩, ⟨ur⟩⟩, db⟩ with
          | (ctx1, some (b, _)) => ⟨ctx1, m, b :: ir, rt⟩
          | (ctx1, none) => ⟨ctx1, m, ir, rt⟩)
        rw [hstep]
        exact ⟨h1, h2⟩
      | cons e restu =>
        obtain ⟨buf, s⟩ := e
        have hstep : popReqBuf ⟨⟨⟨fq⟩, ⟨(buf, s) :: restu⟩⟩, ⟨⟨fr⟩, ⟨ur⟩⟩, db⟩
            = (⟨⟨⟨fq⟩, ⟨restu⟩⟩, ⟨⟨fr⟩, ⟨ur⟩⟩, db⟩, some (buf, s)) := by
          simp [popReqBuf, dequeue]
        show TInv (match popReqBuf ⟨⟨⟨fq⟩, ⟨(buf, s) :: restu⟩⟩, ⟨⟨fr⟩, ⟨ur⟩⟩, db⟩ with
          | (ctx1, some (b, _)) => ⟨ctx1, m, b :: ir, rt⟩
          | (ctx1, none) => ⟨ctx1, m, ir, rt⟩)
        rw [hstep]
        refine ⟨?_, h2⟩
        show (↑(fq.map Prod.fst) + ↑(restu.map Prod.fst) + ↑(buf :: ir) : Multiset Nat)
            = ↑(reqPool db)
        rw [coe_cons_nat]
        rw [coe_map_cons] at h1
        rw [← h1]
        abel
    | popRet =>
      cases ur with
      | nil =>
        have hstep : popRetBuf ⟨⟨⟨fq⟩, ⟨uq⟩⟩, ⟨⟨fr⟩, ⟨[]⟩⟩, db⟩
            = (⟨⟨⟨fq⟩, ⟨uq⟩⟩, ⟨⟨fr⟩, ⟨[]⟩⟩, db⟩, none) := by
          simp [popRetBuf, dequeue]
        show TInv (match popRetBuf ⟨⟨⟨fq⟩, ⟨uq⟩⟩, ⟨⟨fr⟩, ⟨[]⟩⟩, db⟩ with
          | (ctx1, some (b, _)) => ⟨ctx1, m, ir, b :: rt⟩
          | (ctx1, none) => ⟨ctx1, m, ir, rt⟩)
        rw [hstep]
        exact ⟨h1, h2⟩
      | cons e restu =>
        obtain ⟨buf, s⟩ := e
        have hstep : popRetBuf ⟨⟨⟨fq⟩, ⟨uq⟩⟩, ⟨⟨fr⟩, ⟨(buf, s) :: restu⟩⟩, db⟩
            = (⟨⟨⟨fq⟩, ⟨uq⟩⟩, ⟨⟨fr⟩, ⟨restu⟩⟩, db⟩, some (buf, s)) := by
          simp [popRetBuf, dequeue]
        show TInv (match popRetBuf ⟨⟨⟨fq⟩, ⟨uq⟩⟩, ⟨⟨fr⟩, ⟨(buf, s) :: restu⟩⟩, db⟩ with
          | (ctx1, some (b, _)) => ⟨ctx1, m, ir, b :: rt⟩
          | (ctx1, none) => ⟨ctx1, m, ir, rt⟩)
        rw [hstep]
        refine ⟨h1, ?_⟩
        show (↑(fr.map Prod.fst) + ↑(restu.map Prod.fst) + ↑(buf :: rt) : Multiset Nat)
            = ↑(retPool db)
        rw [coe_cons_nat]
        rw [coe_map_cons] at h2
        rw [← h2]
        abel
    | releaseReq buf =>
      have hmem : buf ∈ ir := hok
      by_cases hf2 : fq.length ≥ RING_SIZE
      · have hirpos : 0 < ir.length := List.length_pos_of_mem hmem
        have : False := by simp only [RING_SIZE] at hcq hf2; omega
        exact this.elim
      · have hstep : releaseReqBuf ⟨⟨⟨fq⟩, ⟨uq⟩⟩, ⟨⟨fr⟩, ⟨ur⟩⟩, db⟩ buf
            = (⟨⟨⟨fq ++ [(buf, I2C_BUF_SZ)]⟩, ⟨uq⟩⟩, ⟨⟨fr⟩, ⟨ur⟩⟩, db⟩, 0) := by
          simp [releaseReqBuf, enqueue, hf2]
        show TInv (match releaseReqBuf ⟨⟨⟨fq⟩, ⟨uq⟩⟩, ⟨⟨fr⟩, ⟨ur⟩⟩, db⟩ buf with
          | (ctx1, rc) => ⟨ctx1, m, if rc = 0 then ir.erase buf else ir, rt⟩)
        rw [hstep]
        show TInv ⟨⟨⟨⟨fq ++ [(buf, I2C_BUF_SZ)]⟩, ⟨uq⟩⟩, ⟨⟨fr⟩, ⟨ur⟩⟩, db⟩, m, ir.erase buf, rt⟩
        refine ⟨?_, h2⟩
        show (↑((fq ++ [(buf, I2C_BUF_SZ)]).map Prod.fst) + ↑(uq.map Prod.fst)
            + ↑(ir.erase buf) : Multiset Nat) = ↑(reqPool db)
        rw [coe_map_append]
        rw [coe_erase_of_mem buf ir hmem] at h1
        rw [← h1]
        abel
    | releaseRet buf =>
      have hmem : buf ∈ rt := hok
      by_cases hf2 : fr.length ≥ RING_SIZE
      · have hirpos : 0 < rt.length := List.length_pos_of_mem hmem
        have : False := by simp only [RING_SIZE] at hcr hf2; omega
        exact this.elim
      · have hstep : releaseRetBuf ⟨⟨⟨fq⟩, ⟨uq⟩⟩, ⟨⟨fr⟩, ⟨ur⟩⟩, db⟩ buf
            = (⟨⟨⟨fq⟩, ⟨uq⟩⟩, ⟨⟨fr ++ [(buf, I2C_BUF_SZ)]⟩, ⟨ur⟩⟩, db⟩, 0) := by
          simp [releaseRetBuf, enqueue, hf2]
        show TInv (match releaseRetBuf ⟨⟨⟨fq⟩, ⟨uq⟩⟩, ⟨⟨fr⟩, ⟨ur⟩⟩, db⟩ buf with
          | (ctx1, rc) => ⟨ctx1, m, ir, if rc = 0 then rt.erase buf else rt⟩)
        rw [hstep]
        show TInv ⟨⟨⟨⟨fq⟩, ⟨uq⟩⟩, ⟨⟨fr ++ [(buf, I2C_BUF_SZ)]⟩, ⟨ur⟩⟩, db⟩, m, ir, rt.erase buf⟩
        refine ⟨h1, ?_⟩
        show (↑((fr ++ [(buf, I2C_BUF_SZ)]).map Prod.fst) + ↑(ur.map Prod.fst)
            + ↑(rt.erase buf) : Multiset Nat) = ↑(retPool db)
        rw [coe_map_append]
        rw [coe_erase_of_mem buf rt hmem] at h2
        rw [← h2]
        abel

/-- The ownership invariant is preserved along any disciplined sequence of
transport operations. -/
lemma TInv_runOps :
    ∀ (ops : List TOp) (w : TWorld), Disciplined w ops → TInv w → TInv (runOps w ops)
  | [], _, _, hinv => hinv
  | op :: rest, w, hd, hinv =>
    TInv_runOps rest (stepOp w op) hd.2 (TInv_step w op hd.1 hinv)

/-- The request-class pool addresses are pairwise distinct. -/
lemma reqPool_nodup (db : Nat) : (reqPool db).Nodup := by
  rw [reqPool]
  refine List.Nodup.map ?_ (List.nodup_range _)
  intro a b h
  simp only [I2C_BUF_SZ] at h
  omega

/-- The return-class pool addresses are pairwise distinct. -/
lemma retPool_nodup (db : Nat) : (retPool db).Nodup := by
  rw [retPool]
  refine List.Nodup.map ?_ (List.nodup_range _)
  intro a b h
  simp only [I2C_BUF_SZ, I2C_BUF_COUNT] at h
  omega

/-- C1: starting from a transport context initialised by
`i2cTransportInit` with `buffer_init`, along every sequence of transport
operations that respects the ownership discipline (`releaseReqBuf`,
`releaseRetBuf` and the driver's `pushRetBuf` target only a slot their
caller holds in flight, and re-initialisation happens only with no slot in
flight), the occupancy multiset of each buffer class — free-ring addresses
plus used-ring addresses plus in-flight addresses — is exactly the pool of
slot addresses, whose members are pairwise distinct: every slot pointer
appears in exactly one of {free ring, used ring, in-flight}.  Moreover the
server's double call of `i2cTransportInit` on the driver context leaves
each free ring holding exactly the (duplicate-free) pool, so re-initialisation
never makes a slot descriptor appear twice in a free ring. -/
theorem C1_slot_ownership_partition (ctx : I2cCtx) (m : Mem) (ops : List TOp)
    (hd : Disciplined ⟨i2cTransportInit ctx true, m, [], []⟩ ops) :
    TInv (runOps ⟨i2cTransportInit ctx true, m, [], []⟩ ops)
    ∧ (reqPool ctx.driver_bufs).Nodup
    ∧ (retPool ctx.driver_bufs).Nodup
    ∧ ringAddrs (i2cTransportInit (i2cTransportInit ctx true) true).reqRing.free
        = reqPool ctx.driver_bufs
    ∧ ringAddrs (i2cTransportInit (i2cTransportInit ctx true) true).retRing.free
        = retPool ctx.driver_bufs := by
  refine ⟨TInv_runOps ops _ hd (TInv_init ctx m), reqPool_nodup _, retPool_nodup _, ?_, ?_⟩
  · rw [i2cTransportInit_true, i2cTransportInit_true]
    simp [ringAddrs, reqPool, List.map_map, Function.comp_def]
  · rw [i2cTransportInit_true, i2cTransportInit_true]
    simp [ringAddrs, retPool, List.map_map, Function.comp_def]

/-- Witness for C1: the empty operation sequence from a concrete
initialised context is disciplined, and the partition invariant holds
there. -/
theorem C1_witness :
    Disciplined ⟨i2cTransportInit ⟨⟨⟨[]⟩, ⟨[]⟩⟩, ⟨⟨[]⟩, ⟨[]⟩⟩, 0⟩ true, (fun _ => 0), [], []⟩ []
      ∧ TInv (runOps ⟨i2cTransportInit ⟨⟨⟨[]⟩, ⟨[]⟩⟩, ⟨⟨[]⟩, ⟨[]⟩⟩, 0⟩ true,
          (fun _ => 0), [], []⟩ []) :=
  ⟨trivial,
    (C1_slot_ownership_partition ⟨⟨⟨[]⟩, ⟨[]⟩⟩, ⟨⟨[]⟩, ⟨[]⟩⟩, 0⟩ (fun _ => 0) [] trivial).1⟩

/-- Two pops followed by two releases of the same return slot: the
transport layer performs no ownership check, so the second release
duplicates the descriptor in the return free ring. -/
lemma double_release_dup (fq uq ur : List RingEntry) (db a s b t : Nat)
    (rest : List RingEntry) (m : Mem)
    (hlen : rest.length + 1 < RING_SIZE) (hba : b ≠ a) :
    (runOps ⟨⟨⟨⟨fq⟩, ⟨uq⟩⟩, ⟨⟨(a, s) :: (b, t) :: rest⟩, ⟨ur⟩⟩, db⟩, m, [], []⟩
        [TOp.getRet, TOp.getRet, TOp.releaseRet a,
          TOp.releaseRet a]).ctx.retRing.free.entries
      = rest ++ [(a, I2C_BUF_SZ)] ++ [(a, I2C_BUF_SZ)] := by
  have s1 : stepOp ⟨⟨⟨⟨fq⟩, ⟨uq⟩⟩, ⟨⟨(a, s) :: (b, t) :: rest⟩, ⟨ur⟩⟩, db⟩, m, [], []⟩
      TOp.getRet = ⟨⟨⟨⟨fq⟩, ⟨uq⟩⟩, ⟨⟨(b, t) :: rest⟩, ⟨ur⟩⟩, db⟩, m, [], [a]⟩ := by
    simp [stepOp, getRetBuf, dequeue]
  have s2 : stepOp ⟨⟨⟨⟨fq⟩, ⟨uq⟩⟩, ⟨⟨(b, t) :: rest⟩, ⟨ur⟩⟩, db⟩, m, [], [a]⟩
      TOp.getRet = ⟨⟨⟨⟨fq⟩, ⟨uq⟩⟩, ⟨⟨rest⟩, ⟨ur⟩⟩, db⟩, m, [], [b, a]⟩ := by
    simp [stepOp, getRetBuf, dequeue]
  have s3 : stepOp ⟨⟨⟨⟨fq⟩, ⟨uq⟩⟩, ⟨⟨rest⟩, ⟨ur⟩⟩, db⟩, m, [], [b, a]⟩
      (TOp.releaseRet a)
      = ⟨⟨⟨⟨fq⟩, ⟨uq⟩⟩, ⟨⟨rest ++ [(a, I2C_BUF_SZ)]⟩, ⟨ur⟩⟩, db⟩, m, [], [b]⟩ := by
    have hfull : ¬ rest.length ≥ RING_SIZE := by omega
    simp [stepOp, releaseRetBuf, enqueue, hfull, List.erase_cons, hba]
  have s4 : stepOp ⟨⟨⟨⟨fq⟩, ⟨uq⟩⟩, ⟨⟨rest ++ [(a, I2C_BUF_SZ)]⟩, ⟨ur⟩⟩, db⟩, m, [], [b]⟩
      (TOp.releaseRet a)
      = ⟨⟨⟨⟨fq⟩, ⟨uq⟩⟩, ⟨⟨rest ++ [(a, I2C_BUF_SZ)] ++ [(a, I2C_BUF_SZ)]⟩, ⟨ur⟩⟩, db⟩,
         m, [], [b]⟩ := by
    have hfull : ¬ RING_SIZE ≤ rest.length + 1 := by omega
    simp [stepOp, releaseRetBuf, enqueue, hfull, List.erase_cons, hba]
  simp only [runOps, List.foldl_cons, List.foldl_nil]
  rw [s1, s2, s3, s4]

/-- Splitting the two head elements off a mapped range. -/
lemma map_range_two_split {α : Type} (f : Nat → α) (n : Nat) :
    (List.range (n + 2)).map f
      = f 0 :: f 1 :: (List.range n).map (fun i => f (i + 2)) := by
  rw [List.range_succ_eq_map, List.range_succ_eq_map]
  simp only [List.map_cons, List.map_map, Function.comp_def, Nat.succ_eq_add_one]

/-- The initial return free ring, split into its first two descriptors. -/
lemma retInit_split :
    (List.range I2C_BUF_COUNT).map
        (fun i => ((0:Nat) + I2C_BUF_SZ * (i + I2C_BUF_COUNT), I2C_BUF_SZ))
      = (262144, I2C_BUF_SZ) :: (262656, I2C_BUF_SZ)
        :: (List.range 510).map
            (fun i => ((0:Nat) + I2C_BUF_SZ * (i + 2 + I2C_BUF_COUNT), I2C_BUF_SZ)) := by
  have h := map_range_two_split
      (fun i => ((0:Nat) + I2C_BUF_SZ * (i + I2C_BUF_COUNT), I2C_BUF_SZ)) 510
  have h2 : (510 + 2) = I2C_BUF_COUNT := rfl
  rw [h2] at h
  rw [h]
  norm_num [I2C_BUF_SZ, I2C_BUF_COUNT]

/-- Counterexample to C1 as stated (over all operation sequences): the
transport layer never checks ownership, so after freeing capacity with two
`getRetBuf` calls, releasing the same return slot twice duplicates its
descriptor in the return free ring — the pool slot address `0x40000`
then appears twice. -/
theorem C1_counterexample :
    262144 ∈ retPool 0 ∧
    (ringAddrs (runOps ⟨i2cTransportInit ⟨⟨⟨[]⟩, ⟨[]⟩⟩, ⟨⟨[]⟩, ⟨[]⟩⟩, 0⟩ true,
        (fun _ => 0), [], []⟩
        [TOp.getRet, TOp.getRet, TOp.releaseRet 262144,
          TOp.releaseRet 262144]).ctx.retRing.free).count 262144 = 2 := by
  constructor
  · rw [retPool]
    refine List.mem_map.mpr ⟨0, List.mem_range.mpr ?_, ?_⟩
    · norm_num [I2C_BUF_COUNT]
    · norm_num [I2C_BUF_SZ, I2C_BUF_COUNT]
  · rw [i2cTransportInit_true]
    dsimp only
    rw [retInit_split]
    simp only [ringAddrs]
    rw [double_release_dup _ _ _ _ _ _ _ _ _ _
      (by simp only [List.length_map, List.length_range, RING_SIZE]; omega)
      (by norm_num)]
    simp only [List.map_append, List.count_append]
    have hzero : (((List.range 510).map
        (fun i => ((0:Nat) + I2C_BUF_SZ * (i + 2 + I2C_BUF_COUNT), I2C_BUF_SZ))).map
          Prod.fst).count 262144 = 0 := by
      refine List.count_eq_zero.mpr ?_
      intro hmem
      simp only [List.map_map] at hmem
      simp only [List.mem_map, List.mem_range, Function.comp_def] at hmem
      obtain ⟨j, hj, hfst⟩ := hmem
      simp only [I2C_BUF_SZ, I2C_BUF_COUNT] at hfst
      omega
    rw [hzero]
    norm_num
